import Mathlib

/-!
# 7Semi SGP4x driver: embedding and verified properties

A shallow embedding of `src/7Semi_SGP4x.h` and `src/7Semi_SGP4x.cpp`.

* The object's fields become the structure `SGP4x_7Semi`; member functions take the
  object and return the updated object.
* The I2C port (`TwoWire`) and the Arduino `delay` are an external collaborator.  They are
  modelled by `Board`: a log of every call the driver makes, together with three scripts that
  fix what the coming `endTransmission`, `requestFrom` and `read` calls return.  Quantifying
  over all boards quantifies over every behaviour of the bus.
* `uint8_t` / `uint16_t` are natural numbers with explicit `% 256` / `% 65536`.
* `float` values are finite IEEE-754 binary32 numbers, held as exact rationals; every
  arithmetic operation is followed by `f32`, the round-to-nearest-even of binary32.
* Reference (output) parameters are passed in and handed back in the result.
-/

/-! ## Constants of the header -/

/-- Opcode `#define CMD_SGP40_MEASURE_RAW 0x260F`. -/
def CMD_SGP40_MEASURE_RAW : Nat := 0x260F

/-- Opcode `#define CMD_SGP41_MEASURE_RAW 0x2619`. -/
def CMD_SGP41_MEASURE_RAW : Nat := 0x2619

/-- Opcode `#define CMD_SGP41_CONDITIONING 0x2612`. -/
def CMD_SGP41_CONDITIONING : Nat := 0x2612

/-- Wait after an SGP41 command, in milliseconds. -/
def SGP41_DELAY_MS : Nat := 50

/-- Wait after an SGP40 command, in milliseconds. -/
def SGP40_DELAY_MS : Nat := 30

/-! ## The bus and the clock -/

/-- One call made by the driver to the I2C port or to `delay`. -/
inductive Call where
  | wireBegin
  | wireBeginPins (sda scl : Int)
  | setClock (clockSpeed : Nat)
  | beginTransmission (address : Nat)
  | write (byte : Nat)
  | endTransmission
  | requestFrom (address quantity : Nat)
  | read
  | delay (ms : Nat)
  deriving DecidableEq

/-- The world outside the driver: the calls made so far (oldest first) and what the coming
calls will answer.  `endStatus` are the values of the coming `endTransmission` calls,
`granted` the values of the coming `requestFrom` calls, `incoming` the values of the coming
`read` calls. -/
structure Board where
  calls : List Call
  endStatus : List Nat
  granted : List Nat
  incoming : List Int
  deriving DecidableEq

namespace Board

/-- Append one call to the log. -/
def log (b : Board) (c : Call) : Board :=
  { b with calls := b.calls ++ [c] }

/-- Call of `i2c->begin()`. -/
def wireBegin (b : Board) : Board := b.log Call.wireBegin

/-- Call of `i2c->begin(sda, scl)`. -/
def wireBeginPins (b : Board) (sda scl : Int) : Board := b.log (Call.wireBeginPins sda scl)

/-- Call of `i2c->setClock(clockSpeed)`. -/
def setClock (b : Board) (clockSpeed : Nat) : Board := b.log (Call.setClock clockSpeed)

/-- Call of `delay(ms)`. -/
def delay (b : Board) (ms : Nat) : Board := b.log (Call.delay ms)

/-- Call of `i2c->beginTransmission(address)`. -/
def beginTransmission (b : Board) (address : Nat) : Board :=
  b.log (Call.beginTransmission address)

/-- Call of `i2c->write(byte)`. -/
def write (b : Board) (byte : Nat) : Board := b.log (Call.write byte)

/-- Call of `i2c->endTransmission()`: the status comes from the script (0 once the script
has run out). -/
def endTransmission (b : Board) : Nat × Board :=
  (b.endStatus.headD 0, { b.log Call.endTransmission with endStatus := b.endStatus.tail })

/-- Call of `i2c->requestFrom(address, quantity)`: the reported byte count comes from the
script (0 once the script has run out). -/
def requestFrom (b : Board) (address quantity : Nat) : Nat × Board :=
  (b.granted.headD 0, { b.log (Call.requestFrom address quantity) with granted := b.granted.tail })

/-- Call of `i2c->read()`: the value comes from the script; an empty receive buffer
answers -1, as the Arduino port does. -/
def read (b : Board) : Int × Board :=
  (b.incoming.headD (-1), { b.log Call.read with incoming := b.incoming.tail })

end Board

/-- Conversion of an `int` to `uint8_t`. -/
def u8 (x : Int) : Nat := (x % 256).toNat

/-! ## Binary32 arithmetic -/

/-- Values of the C++ type `float`: the finite binary32 numbers, as exact rationals. -/
abbrev Float32 := ℚ

/-- Nearest integer, ties to the even one. -/
def roundHalfEven (q : ℚ) : ℤ :=
  if q - ⌊q⌋ < 1 / 2 then ⌊q⌋
  else if 1 / 2 < q - ⌊q⌋ then ⌊q⌋ + 1
  else if ⌊q⌋ % 2 = 0 then ⌊q⌋ else ⌊q⌋ + 1

/-- Spacing of the binary32 numbers around `x`: 24 significant bits, least normal exponent
-126 (below it the spacing stays that of the subnormal numbers). -/
def ulp (x : ℚ) : ℚ := (2 : ℚ) ^ (max (Int.log 2 |x|) (-126) - 23)

/-- Result of a binary32 operation whose exact value is `x`: round to nearest, ties to
even.  Overflow to infinity is left out; the driver only rounds values below `2 ^ 24`. -/
def f32 (x : ℚ) : Float32 := roundHalfEven (x / ulp x) * ulp x

/-- Conversion `(uint16_t) x` of a float: the fraction is discarded. -/
def toUint16 (x : Float32) : Nat := (if 0 ≤ x then ⌊x⌋ else ⌈x⌉).toNat % 65536

/-! ## The driver object -/

/-- Supported sensor types, `enum SGP4x : uint8_t`. -/
inductive SGP4x_7Semi.SGP4x where
  | SGP40_SENSOR
  | SGP41_SENSOR
  deriving DecidableEq

/-- The driver object `class SGP4x_7Semi`: its private fields.  `i2c` is `none` for the null
pointer and otherwise names the port handed to `begin`. -/
structure SGP4x_7Semi where
  i2c : Option Nat
  address : Nat
  _initialized : Bool
  sensor_type : SGP4x_7Semi.SGP4x
  voc_raw : Nat
  nox_raw : Nat
  error : Nat
  deriving DecidableEq

namespace SGP4x_7Semi

/-- Constant `default_humidity_ticks = 0x8000`. -/
def default_humidity_ticks : Nat := 0x8000

/-- Constant `default_temperature_ticks = 0x6666`. -/
def default_temperature_ticks : Nat := 0x6666

/-- Constructor `SGP4x_7Semi(SGP4x model)`: the sensor type is set, every other field keeps
its default member initializer. -/
def create (model : SGP4x) : SGP4x_7Semi :=
  { i2c := none, address := 0, _initialized := false, sensor_type := model,
    voc_raw := 0, nox_raw := 0, error := 0 }

/-- Member `begin`.  `esp32` tells whether the `ESP32` branch of the conditional
compilation is the one built. -/
def begin (self : SGP4x_7Semi) (b : Board) (esp32 : Bool) (i2cAddress wirePort clockSpeed : Nat)
    (sda scl : Int) : Bool × SGP4x_7Semi × Board :=
  let self := { self with i2c := some wirePort, address := i2cAddress }
  let b := if esp32 then
      (if sda ≠ -1 ∧ scl ≠ -1 then b.wireBeginPins sda scl else b.wireBegin)
    else b.wireBegin
  let b := b.setClock clockSpeed
  let b := b.delay 2
  (true, { self with _initialized := true }, b)

/-- Member `readSensorType`. -/
def readSensorType (self : SGP4x_7Semi) : SGP4x := self.sensor_type

/-- One pass of the inner loop of `generateCRC`:
`crc = (crc & 0x80) ? (crc << 1) ^ 0x31 : (crc << 1)`, stored back into a `uint8_t`. -/
def generateCRC_bit (crc : Nat) : Nat :=
  if crc &&& 0x80 ≠ 0 then ((crc <<< 1) ^^^ 0x31) % 256 else (crc <<< 1) % 256

/-- Inner loop of `generateCRC`, `for (b = 0; b < 8; b++)`, with `n` passes left. -/
def generateCRC_bits : Nat → Nat → Nat
  | 0, crc => crc
  | n + 1, crc => generateCRC_bits n (generateCRC_bit crc)

/-- Outer loop of `generateCRC`, `for (i = 0; i < len; i++)`, at index `i` with `n = len - i`
passes left (`len` is a `uint8_t`, so the counter never wraps). -/
def generateCRC_loop (data : List Nat) : Nat → Nat → Nat → Nat
  | 0, _, crc => crc
  | n + 1, i, crc =>
    generateCRC_loop data n (i + 1) (generateCRC_bits 8 ((crc ^^^ data.getD i 0) % 256))

/-- Member `generateCRC(data, len)`. -/
def generateCRC (data : List Nat) (len : Nat) : Nat :=
  generateCRC_loop data len 0 0xFF

/-- Loop of `writeCommand`, `for (i = 0; i < words; i++)`, at index `i` with `n = words - i`
passes left. -/
def writeCommand_loop (data : List Nat) : Nat → Nat → Board → Board
  | 0, _, b => b
  | n + 1, i, b =>
    writeCommand_loop data n (i + 1)
      ((((b.write ((data.getD i 0 >>> 8) % 256)).write ((data.getD i 0 &&& 0xFF) % 256)).write
        (generateCRC [(data.getD i 0 >>> 8) % 256, (data.getD i 0 &&& 0xFF) % 256] 2)))

/-- Member `writeCommand(cmd, data, words)`. -/
def writeCommand (self : SGP4x_7Semi) (b : Board) (cmd : Nat) (data : List Nat) (words : Nat) :
    Bool × Board :=
  let b := b.beginTransmission self.address
  let b := b.write ((cmd >>> 8) % 256)
  let b := b.write ((cmd &&& 0xFF) % 256)
  let b := writeCommand_loop data words 0 b
  (b.endTransmission.1 == 0, b.endTransmission.2)

/-- Loop of `readWords`, `for (i = 0; i < words; i++)`, at index `i` with `n = words - i`
passes left.  The result is the return value, the output array and the board. -/
def readWords_loop : Nat → Nat → List Nat → Board → Bool × List Nat × Board
  | 0, _, data, b => (true, data, b)
  | n + 1, i, data, b =>
    let msb := u8 b.read.1
    let lsb := u8 b.read.2.read.1
    let crc := u8 b.read.2.read.2.read.1
    let b := b.read.2.read.2.read.2
    if generateCRC [msb, lsb] 2 ≠ crc then (false, data, b)
    else readWords_loop n (i + 1) (data.set i (((msb <<< 8) ||| lsb) % 65536)) b

/-- Member `readWords(data, words)`.  The result is the return value, the output array and
the board. -/
def readWords (self : SGP4x_7Semi) (b : Board) (data : List Nat) (words : Nat) :
    Bool × List Nat × Board :=
  let expected := (words * 3) % 256
  if (b.requestFrom self.address expected).1 ≠ expected then
    (false, data, (b.requestFrom self.address expected).2)
  else readWords_loop words 0 data (b.requestFrom self.address expected).2

/-- Static member `humidityToTicks(rh)`. -/
def humidityToTicks (rh : Float32) : Nat :=
  let rh := if rh < 0 then 0 else rh
  let rh := if rh > 100 then 100 else rh
  toUint16 (f32 (f32 (f32 (rh * 65535) / 100) + 1 / 2))

/-- Static member `temperatureToTicks(t)`. -/
def temperatureToTicks (t : Float32) : Nat :=
  let t := if t < -45 then -45 else t
  let t := if t > 130 then 130 else t
  toUint16 (f32 (f32 (f32 (f32 (t + 45) * 65535) / 175) + 1 / 2))

/-- What a member function with one output parameter hands back: the return value, the
caller's variable, the object and the board. -/
structure Ret1 where
  ok : Bool
  out : Nat
  self : SGP4x_7Semi
  board : Board
  deriving DecidableEq

/-- What a member function with the two output parameters `voc` and `nox` hands back. -/
structure Ret2 where
  ok : Bool
  voc : Nat
  nox : Nat
  self : SGP4x_7Semi
  board : Board
  deriving DecidableEq

/-- Member `readRawSignalSGP41Comp`.  The local `buffer` holds indeterminate values until
`readWords` fills it; they are never read, and stand here as zeros. -/
def readRawSignalSGP41Comp (self : SGP4x_7Semi) (b : Board) (humidity_percent temperature_c : Float32)
    (voc nox : Nat) : Ret2 :=
  if !self._initialized || self.sensor_type != SGP4x.SGP41_SENSOR then ⟨false, voc, nox, self, b⟩
  else
    let params := [humidityToTicks humidity_percent, temperatureToTicks temperature_c]
    let w := writeCommand self b CMD_SGP41_MEASURE_RAW params 2
    if !w.1 then ⟨false, voc, nox, self, w.2⟩
    else
      let r := readWords self (w.2.delay SGP41_DELAY_MS) [0, 0] 2
      if !r.1 then ⟨false, voc, nox, self, r.2.2⟩
      else
        let self := { self with voc_raw := r.2.1.getD 0 0, nox_raw := r.2.1.getD 1 0 }
        ⟨true, self.voc_raw, self.nox_raw, self, r.2.2⟩

/-- Member `readRawSignalSGP41`. -/
def readRawSignalSGP41 (self : SGP4x_7Semi) (b : Board) (voc nox : Nat) : Ret2 :=
  readRawSignalSGP41Comp self b 50 25 voc nox

/-- Member `readRawSignalSGP40`.  `readWords` writes through `&voc_raw`, a one-word array. -/
def readRawSignalSGP40 (self : SGP4x_7Semi) (b : Board) (voc : Nat) : Ret1 :=
  if !self._initialized || self.sensor_type != SGP4x.SGP40_SENSOR then ⟨false, voc, self, b⟩
  else
    let params := [default_humidity_ticks, default_temperature_ticks]
    let w := writeCommand self b CMD_SGP40_MEASURE_RAW params 2
    if !w.1 then ⟨false, voc, self, w.2⟩
    else
      let r := readWords self (w.2.delay SGP40_DELAY_MS) [self.voc_raw] 1
      let self := { self with voc_raw := r.2.1.getD 0 self.voc_raw }
      if !r.1 then ⟨false, voc, self, r.2.2⟩
      else ⟨true, self.voc_raw, self, r.2.2⟩

/-- Member `executeConditioning`.  `readWords` writes through `&srawVoc`, a one-word
array. -/
def executeConditioning (self : SGP4x_7Semi) (b : Board) (humidity_percent temperature_c : Float32)
    (srawVoc : Nat) : Ret1 :=
  if !self._initialized || self.sensor_type != SGP4x.SGP41_SENSOR then ⟨false, srawVoc, self, b⟩
  else
    let params := [humidityToTicks humidity_percent, temperatureToTicks temperature_c]
    let w := writeCommand self b CMD_SGP41_CONDITIONING params 2
    if !w.1 then ⟨false, srawVoc, self, w.2⟩
    else
      let r := readWords self (w.2.delay SGP41_DELAY_MS) [srawVoc] 1
      ⟨r.1, r.2.1.getD 0 srawVoc, self, r.2.2⟩

/-- Member `readVOC`.  The `switch` has one case per enumerator, so its `default:` branch
is not reached.  The local `nox_dummy` is indeterminate before the call and dropped after
it; it stands here as zero. -/
def readVOC (self : SGP4x_7Semi) (b : Board) (voc : Nat) : Ret1 :=
  match self.sensor_type with
  | SGP4x.SGP40_SENSOR => readRawSignalSGP40 self b voc
  | SGP4x.SGP41_SENSOR =>
    let r := readRawSignalSGP41 self b voc 0
    ⟨r.ok, r.voc, r.self, r.board⟩

/-- Member `readVOCComp`, with the same `switch` and the same `nox_dummy`. -/
def readVOCComp (self : SGP4x_7Semi) (b : Board) (humidity_percent temperature_c : Float32)
    (voc : Nat) : Ret1 :=
  match self.sensor_type with
  | SGP4x.SGP40_SENSOR => readRawSignalSGP40 self b voc
  | SGP4x.SGP41_SENSOR =>
    let r := readRawSignalSGP41Comp self b humidity_percent temperature_c voc 0
    ⟨r.ok, r.voc, r.self, r.board⟩

end SGP4x_7Semi

/-! ## Specification-side definitions -/

/-- CRC-8 bit step in the words of the specification: if the top bit of the 8-bit value is
set, shift left and XOR with 0x31, else shift left, all modulo 256. -/
def crc8_bit (v : Nat) : Nat :=
  if 128 ≤ v then ((2 * v) % 256) ^^^ 0x31 else (2 * v) % 256

/-- CRC-8 byte step in the words of the specification: XOR the byte into the running value,
then eight bit steps. -/
def crc8_byte (crc byte : Nat) : Nat := crc8_bit^[8] (crc ^^^ byte)

/-- CRC-8 of the specification: polynomial 0x31, initial value 0xFF, most significant bit
first, no final XOR. -/
def crc8 (data : List Nat) : Nat := data.foldl crc8_byte 0xFF

/-- The frame of the specification for an opcode and its data words: opcode high byte,
opcode low byte, then for each word its high byte, its low byte and the checksum of
the two. -/
def commandFrame (cmd : Nat) (ws : List Nat) : List Nat :=
  [cmd >>> 8, cmd &&& 0xFF] ++
    ws.flatMap (fun w => [w >>> 8, w &&& 0xFF, SGP4x_7Semi.generateCRC [w >>> 8, w &&& 0xFF] 2])


/-- One word of a response as it travels on the bus: high byte, low byte, checksum byte. -/
structure Triplet where
  msb : Nat
  lsb : Nat
  crc : Nat
  deriving DecidableEq

/-- The three fields of a triplet are bytes. -/
abbrev Triplet.isBytes (t : Triplet) : Prop := t.msb < 256 ∧ t.lsb < 256 ∧ t.crc < 256

/-- The checksum byte of a triplet equals `generateCRC` of its two data bytes. -/
abbrev Triplet.valid (t : Triplet) : Prop := t.crc = SGP4x_7Semi.generateCRC [t.msb, t.lsb] 2

/-- The 16-bit word a triplet carries, high byte first. -/
def Triplet.word (t : Triplet) : Nat := 256 * t.msb + t.lsb

/-- The values the successive `read` calls return while a response is received. -/
def responseBytes (ts : List Triplet) : List Int :=
  ts.flatMap (fun t => [(t.msb : Int), (t.lsb : Int), (t.crc : Int)])

/-- A byte with bit `k` inverted. -/
def flipBit (x k : Nat) : Nat := x ^^^ (1 <<< k)

/-- A triplet with one bit of one data byte inverted (`inLsb` chooses the low byte) and
the checksum byte left as it was. -/
def Triplet.corrupt (t : Triplet) (inLsb : Bool) (k : Nat) : Triplet :=
  if inLsb then { t with lsb := flipBit t.lsb k } else { t with msb := flipBit t.msb k }

/-- The board after `k` further `read` calls that leave `rest` in the script. -/
def Board.afterReads (b : Board) (k : Nat) (rest : List Int) : Board :=
  { b with calls := b.calls ++ List.replicate k Call.read, incoming := rest }

/-- Inverse of one pass of the inner loop of `generateCRC` on bytes: the bit shifted out is
recovered from the lowest bit, which only the XOR with 0x31 can set. -/
def generateCRC_bit_inv (y : Nat) : Nat :=
  if y % 2 = 1 then ((y ^^^ 0x31) >>> 1) + 128 else y >>> 1

/-- One call of a public operation that reports success, with its arguments; the output
parameters carry the values the caller's variables hold before the call. -/
inductive Op where
  | executeConditioning (humidity_percent temperature_c : Float32) (srawVoc : Nat)
  | readVOC (voc : Nat)
  | readVOCComp (humidity_percent temperature_c : Float32) (voc : Nat)
  | readRawSignalSGP41 (voc nox : Nat)
  | readRawSignalSGP41Comp (humidity_percent temperature_c : Float32) (voc nox : Nat)
  | readRawSignalSGP40 (voc : Nat)

/-- What a call leaves behind: the return value, the caller's output variables, the object
and the board. -/
structure Outcome where
  ok : Bool
  outs : List Nat
  self : SGP4x_7Semi
  board : Board

/-- The caller's output variables before the call. -/
def Op.outs : Op → List Nat
  | Op.executeConditioning _ _ srawVoc => [srawVoc]
  | Op.readVOC voc => [voc]
  | Op.readVOCComp _ _ voc => [voc]
  | Op.readRawSignalSGP41 voc nox => [voc, nox]
  | Op.readRawSignalSGP41Comp _ _ voc nox => [voc, nox]
  | Op.readRawSignalSGP40 voc => [voc]

/-- Outcome of a member function with one output parameter. -/
def Outcome.of1 (r : SGP4x_7Semi.Ret1) : Outcome := ⟨r.ok, [r.out], r.self, r.board⟩

/-- Outcome of a member function with two output parameters. -/
def Outcome.of2 (r : SGP4x_7Semi.Ret2) : Outcome := ⟨r.ok, [r.voc, r.nox], r.self, r.board⟩

/-- Perform the call on an object and a board. -/
def Op.run (op : Op) (self : SGP4x_7Semi) (b : Board) : Outcome :=
  match op with
  | Op.executeConditioning h t srawVoc => Outcome.of1 (self.executeConditioning b h t srawVoc)
  | Op.readVOC voc => Outcome.of1 (self.readVOC b voc)
  | Op.readVOCComp h t voc => Outcome.of1 (self.readVOCComp b h t voc)
  | Op.readRawSignalSGP41 voc nox => Outcome.of2 (self.readRawSignalSGP41 b voc nox)
  | Op.readRawSignalSGP41Comp h t voc nox => Outcome.of2 (self.readRawSignalSGP41Comp b h t voc nox)
  | Op.readRawSignalSGP40 voc => Outcome.of1 (self.readRawSignalSGP40 b voc)

/-- Perform a sequence of calls, each on the object and the board the one before left. -/
def Op.runAll : List Op → SGP4x_7Semi → Board → SGP4x_7Semi × Board
  | [], self, b => (self, b)
  | op :: ops, self, b => Op.runAll ops (op.run self b).self (op.run self b).board

/-- Humidity ticks in the words of the specification: clamp the input to [0, 100], then
round `value * 65535 / 100` half-up (add 0.5 and truncate), in exact arithmetic. -/
def humidityTicksExact (rh : ℚ) : ℤ := ⌊max 0 (min rh 100) * 65535 / 100 + 1 / 2⌋

/-- Temperature ticks in the words of the specification: clamp the input to [-45, 130],
then round `(value + 45) * 65535 / 175` half-up, in exact arithmetic. -/
def temperatureTicksExact (t : ℚ) : ℤ := ⌊(max (-45) (min t 130) + 45) * 65535 / 175 + 1 / 2⌋

/-! ## Definitions for the read operations and the index calculations -/

namespace SGP4x_7Semi

/-- Member `calculateVOCIndex(raw)`: `(raw > 20000) ? (raw - 20000) / 100.0f : 0.0f`.  In
the first branch the difference is positive and below `2 ^ 16`, so it converts to float
as it is; the division is a binary32 division. -/
def calculateVOCIndex (raw : Nat) : Float32 :=
  if raw > 20000 then f32 (((raw - 20000 : Nat) : ℚ) / 100) else 0

/-- Member `calculateNOxIndex(raw)`: `(raw > 10000) ? (raw - 10000) / 200.0f : 0.0f`. -/
def calculateNOxIndex (raw : Nat) : Float32 :=
  if raw > 10000 then f32 (((raw - 10000 : Nat) : ℚ) / 200) else 0

end SGP4x_7Semi

/-- The calls of one write transaction that carries the frame of `cmd` and `ws` to
`address`. -/
def frameCalls (address cmd : Nat) (ws : List Nat) : List Call :=
  [Call.beginTransmission address] ++ (commandFrame cmd ws).map Call.write ++
    [Call.endTransmission]

/-- The board once a write transaction with the frame of `cmd` and `ws` has been closed. -/
def Board.afterFrame (b : Board) (address cmd : Nat) (ws : List Nat) : Board :=
  { b with calls := b.calls ++ frameCalls address cmd ws, endStatus := b.endStatus.tail }

/-- The board after a further `delay(ms)` and a further `requestFrom(address, quantity)`. -/
def Board.afterRequest (b : Board) (ms address quantity : Nat) : Board :=
  { b with
    calls := b.calls ++ [Call.delay ms, Call.requestFrom address quantity]
    granted := b.granted.tail }

/-- The triplet that carries a 16-bit word: high byte, low byte and their checksum. -/
def wordTriplet (w : Nat) : Triplet :=
  ⟨w >>> 8, w &&& 0xFF, SGP4x_7Semi.generateCRC [w >>> 8, w &&& 0xFF] 2⟩

/-- The bytes handed to `write` in a list of calls, in order. -/
def writtenBytes (calls : List Call) : List Nat :=
  calls.filterMap (fun c => match c with
    | Call.write byte => some byte
    | _ => none)

/-- The byte the driver obtains from the `(i + 1)`-th coming `read` call. -/
def Board.peek (b : Board) (i : Nat) : Nat := u8 (b.incoming.getD i (-1))

/-- VOC index in the words of the specification, in exact arithmetic:
`max(0, raw - 20000) / 100`. -/
def vocIndexExact (raw : Nat) : ℚ := max 0 ((raw : ℚ) - 20000) / 100

/-- NOx index in the words of the specification, in exact arithmetic:
`max(0, raw - 10000) / 200`. -/
def noxIndexExact (raw : Nat) : ℚ := max 0 ((raw : ℚ) - 10000) / 200

/-- One step in the life of the object: a call of `begin` with its arguments, or a call
of one of the other operations. -/
inductive Step where
  | begin (esp32 : Bool) (i2cAddress wirePort clockSpeed : Nat) (sda scl : Int)
  | op (o : Op)

/-- Perform one step on an object and a board. -/
def Step.run (s : Step) (self : SGP4x_7Semi) (b : Board) : SGP4x_7Semi × Board :=
  match s with
  | Step.begin esp32 i2cAddress wirePort clockSpeed sda scl =>
    (self.begin b esp32 i2cAddress wirePort clockSpeed sda scl).2
  | Step.op o => ((o.run self b).self, (o.run self b).board)

/-- Perform a sequence of steps, each on the object and the board the one before left. -/
def Step.runAll : List Step → SGP4x_7Semi → Board → SGP4x_7Semi × Board
  | [], self, b => (self, b)
  | s :: ss, self, b => Step.runAll ss (s.run self b).1 (s.run self b).2
/-! ## Checksum -/

namespace SGP4x_7Semi

theorem generateCRC_bit_lt (v : Nat) : generateCRC_bit v < 256 := by
  unfold generateCRC_bit
  split <;> exact Nat.mod_lt _ (by norm_num)

theorem generateCRC_bits_lt (n v : Nat) (h : v < 256) : generateCRC_bits n v < 256 := by
  induction n generalizing v with
  | zero => simpa [generateCRC_bits] using h
  | succ n ih => exact ih _ (generateCRC_bit_lt v)

set_option maxRecDepth 100000 in
theorem generateCRC_bit_eq_crc8_bit : ∀ v < 256, generateCRC_bit v = crc8_bit v := by
  decide

theorem generateCRC_bits_eq_iterate (n v : Nat) (h : v < 256) :
    generateCRC_bits n v = crc8_bit^[n] v := by
  induction n generalizing v with
  | zero => rfl
  | succ n ih =>
    rw [generateCRC_bits, Function.iterate_succ_apply, ih _ (generateCRC_bit_lt v),
      generateCRC_bit_eq_crc8_bit v h]

theorem generateCRC_loop_lt (data : List Nat) (n i crc : Nat) (hcrc : crc < 256) :
    generateCRC_loop data n i crc < 256 := by
  induction n generalizing i crc with
  | zero => simpa [generateCRC_loop] using hcrc
  | succ n ih => exact ih _ _ (generateCRC_bits_lt _ _ (Nat.mod_lt _ (by norm_num)))

theorem generateCRC_lt (data : List Nat) (len : Nat) : generateCRC data len < 256 :=
  generateCRC_loop_lt data len 0 0xFF (by norm_num)

theorem xor_lt_256 {a b : Nat} (ha : a < 256) (hb : b < 256) : a ^^^ b < 256 :=
  Nat.xor_lt_two_pow (n := 8) ha hb

theorem generateCRC_loop_eq_foldl (data : List Nat) (hb : ∀ x ∈ data, x < 256) (n i crc : Nat)
    (hn : i + n = data.length) (hcrc : crc < 256) :
    generateCRC_loop data n i crc = (data.drop i).foldl crc8_byte crc := by
  induction n generalizing i crc with
  | zero =>
    have : data.drop i = [] := List.drop_eq_nil_of_le (by omega)
    simp [generateCRC_loop, this]
  | succ n ih =>
    have hi : i < data.length := by omega
    have hx : data.getD i 0 < 256 := by
      rw [List.getD_eq_getElem _ _ hi]
      exact hb _ (List.getElem_mem _)
    have hxor : crc ^^^ data.getD i 0 < 256 := xor_lt_256 hcrc hx
    rw [generateCRC_loop, ih (i + 1) _ (by omega) (generateCRC_bits_lt _ _ (Nat.mod_lt _ (by norm_num))),
      Nat.mod_eq_of_lt hxor, generateCRC_bits_eq_iterate _ _ hxor, List.drop_eq_getElem_cons hi,
      List.foldl_cons, List.getD_eq_getElem _ _ hi]
    rfl

end SGP4x_7Semi

/-- C1: for every byte sequence (of any length, so of length 0..255), `generateCRC` returns the CRC-8 of the
specification (polynomial 0x31, initial value 0xFF, most significant bit first, no final XOR,
modulo 256), and the four test vectors have the stated checksums. -/
theorem generateCRC_eq_crc8 (data : List Nat)
    (hbytes : ∀ x ∈ data, x < 256) :
    SGP4x_7Semi.generateCRC data data.length = crc8 data ∧
    SGP4x_7Semi.generateCRC data data.length < 256 ∧
    SGP4x_7Semi.generateCRC [0xBE, 0xEF] 2 = 0x92 ∧
    SGP4x_7Semi.generateCRC [0x80, 0x00] 2 = 0xA2 ∧
    SGP4x_7Semi.generateCRC [0x66, 0x66] 2 = 0x93 ∧
    SGP4x_7Semi.generateCRC [] 0 = 0xFF := by
  have h := SGP4x_7Semi.generateCRC_loop_eq_foldl data hbytes data.length 0 0xFF (by simp)
    (by norm_num)
  exact ⟨by simpa [SGP4x_7Semi.generateCRC, crc8] using h, SGP4x_7Semi.generateCRC_lt _ _,
    by decide, by decide, by decide, by decide⟩

theorem generateCRC_eq_crc8_witness :
    SGP4x_7Semi.generateCRC [0x12, 0x34, 0x56] 3 = crc8 [0x12, 0x34, 0x56] :=
  (generateCRC_eq_crc8 [0x12, 0x34, 0x56] (by decide)).1

/-! ## Command frames -/

namespace SGP4x_7Semi

theorem and_255_lt (w : Nat) : w &&& 0xFF < 256 :=
  Nat.lt_of_le_of_lt Nat.and_le_right (by norm_num)

theorem shiftRight_8_lt {w : Nat} (h : w < 65536) : w >>> 8 < 256 := by
  rw [Nat.shiftRight_eq_div_pow]
  omega

theorem writeCommand_loop_eq (data : List Nat) (hw : ∀ w ∈ data, w < 65536) (n i : Nat) (b : Board)
    (hn : i + n = data.length) :
    writeCommand_loop data n i b =
      { b with calls := b.calls ++ ((data.drop i).flatMap (fun w =>
          [w >>> 8, w &&& 0xFF, generateCRC [w >>> 8, w &&& 0xFF] 2])).map Call.write } := by
  induction n generalizing i b with
  | zero =>
    have : data.drop i = [] := List.drop_eq_nil_of_le (by omega)
    simp [writeCommand_loop, this]
  | succ n ih =>
    have hi : i < data.length := by omega
    have hx : data.getD i 0 < 65536 := by
      rw [List.getD_eq_getElem _ _ hi]
      exact hw _ (List.getElem_mem _)
    rw [writeCommand_loop, ih (i + 1) _ (by omega), List.drop_eq_getElem_cons hi,
      Nat.mod_eq_of_lt (shiftRight_8_lt hx), Nat.mod_eq_of_lt (and_255_lt _),
      ← List.getD_eq_getElem _ 0 hi]
    simp [Board.write, Board.log]

end SGP4x_7Semi

/-- C2: for every 16-bit opcode and every list of 16-bit data words, `writeCommand` opens one
write transaction, appends exactly the bytes of the frame (opcode high and low byte, then
per word high byte, low byte and checksum of the two: 2 + 3n bytes, only the two opcode
bytes when there is no word), closes the transaction, and returns true exactly when the
status of `endTransmission` is 0. -/
theorem writeCommand_frame (self : SGP4x_7Semi) (b : Board) (cmd : Nat) (ws : List Nat)
    (hcmd : cmd < 65536) (hws : ∀ w ∈ ws, w < 65536) :
    (self.writeCommand b cmd ws ws.length).2 =
      { b with
        calls := b.calls ++ [Call.beginTransmission self.address] ++
          (commandFrame cmd ws).map Call.write ++ [Call.endTransmission]
        endStatus := b.endStatus.tail } ∧
    (commandFrame cmd ws).length = 2 + 3 * ws.length ∧
    commandFrame cmd [] = [cmd >>> 8, cmd &&& 0xFF] ∧
    ((self.writeCommand b cmd ws ws.length).1 = true ↔ b.endStatus.headD 0 = 0) := by
  have hloop := fun b0 => SGP4x_7Semi.writeCommand_loop_eq ws hws ws.length 0 b0 (by simp)
  refine ⟨?_, ?_, rfl, ?_⟩
  · simp only [SGP4x_7Semi.writeCommand, hloop, Nat.mod_eq_of_lt (SGP4x_7Semi.shiftRight_8_lt hcmd),
      Nat.mod_eq_of_lt (SGP4x_7Semi.and_255_lt _)]
    simp [Board.endTransmission, Board.write, Board.log, Board.beginTransmission, commandFrame]
  · have hlen : ∀ l : List Nat, (l.flatMap (fun w =>
        [w >>> 8, w &&& 0xFF, SGP4x_7Semi.generateCRC [w >>> 8, w &&& 0xFF] 2])).length =
        3 * l.length := by
      intro l
      induction l with
      | nil => rfl
      | cons w l ih => simp only [List.flatMap_cons, List.length_append, ih, List.length_cons,
          List.length_nil]; omega
    simp only [commandFrame, List.length_append, hlen, List.length_cons, List.length_nil]
  · simp only [SGP4x_7Semi.writeCommand, hloop]
    simp [Board.endTransmission, Board.write, Board.log, Board.beginTransmission]

theorem writeCommand_frame_witness :
    ((SGP4x_7Semi.create SGP4x_7Semi.SGP4x.SGP40_SENSOR).writeCommand ⟨[], [0], [], []⟩ 0x260F
        [0x8000, 0x6666] 2).2.calls =
      [Call.beginTransmission 0, Call.write 0x26, Call.write 0x0F, Call.write 0x80, Call.write 0x00,
        Call.write 0xA2, Call.write 0x66, Call.write 0x66, Call.write 0x93, Call.endTransmission] := by
  have h := (writeCommand_frame (SGP4x_7Semi.create SGP4x_7Semi.SGP4x.SGP40_SENSOR)
    ⟨[], [0], [], []⟩ 0x260F [0x8000, 0x6666] (by decide) (by decide)).1
  rw [show ([0x8000, 0x6666] : List Nat).length = 2 from rfl] at h
  rw [h]
  decide

/-! ## Reading words -/

theorem u8_natCast {n : Nat} (h : n < 256) : u8 (n : Int) = n := by
  unfold u8
  omega

theorem shiftLeft_or_eq {m l : Nat} (hm : m < 256) (hl : l < 256) :
    ((m <<< 8) ||| l) % 65536 = 256 * m + l := by
  have h := Nat.mul_add_lt_is_or (i := 8) (b := l) (by simpa using hl) m
  rw [Nat.shiftLeft_eq, Nat.mul_comm, ← h]
  norm_num
  omega

namespace SGP4x_7Semi

theorem readWords_loop_step (n i : Nat) (data : List Nat) (b : Board) (t : Triplet)
    (rest : List Int) (ht : t.isBytes) (hin : b.incoming = responseBytes [t] ++ rest) :
    readWords_loop (n + 1) i data b =
      if generateCRC [t.msb, t.lsb] 2 ≠ t.crc then (false, data, b.afterReads 3 rest)
      else readWords_loop n (i + 1) (data.set i t.word) (b.afterReads 3 rest) := by
  obtain ⟨h1, h2, h3⟩ := ht
  simp only [responseBytes, List.flatMap_cons, List.flatMap_nil, List.append_nil,
    List.cons_append, List.nil_append] at hin
  simp only [readWords_loop, Board.read, Board.log, hin, List.headD_cons, List.tail_cons,
    u8_natCast h1, u8_natCast h2, u8_natCast h3, shiftLeft_or_eq h1 h2, Triplet.word, Board.afterReads,
    List.append_assoc, List.cons_append, List.nil_append, List.replicate]

theorem take_succ_set (data : List Nat) (i w : Nat) (hi : i < data.length) :
    (data.set i w).take (i + 1) = data.take i ++ [w] := by
  rw [List.take_succ, List.getElem?_set_self hi]
  congr 1
  apply List.ext_getElem?
  intro k
  simp only [List.getElem?_take]
  split
  · rw [List.getElem?_set_ne (by omega)]
  · rfl

theorem afterReads_afterReads (b : Board) (j k : Nat) (r1 r2 : List Int) :
    (b.afterReads j r1).afterReads k r2 = b.afterReads (j + k) r2 := by
  simp [Board.afterReads]

theorem responseBytes_cons (t : Triplet) (ts : List Triplet) :
    responseBytes (t :: ts) = responseBytes [t] ++ responseBytes ts := by
  simp [responseBytes]

/-- While the triplets are valid the loop stores their words and goes on. -/
theorem readWords_loop_prefix (pre : List Triplet) (hpre : ∀ t ∈ pre, t.isBytes ∧ t.valid)
    (m i : Nat) (data : List Nat) (b : Board) (rest : List Int)
    (hin : b.incoming = responseBytes pre ++ rest) (hi : i + pre.length ≤ data.length) :
    readWords_loop (pre.length + m) i data b =
      readWords_loop m (i + pre.length)
        (data.take i ++ pre.map Triplet.word ++ data.drop (i + pre.length))
        (b.afterReads (3 * pre.length) rest) := by
  induction pre generalizing i data b with
  | nil =>
    have hb : b.afterReads 0 rest = b := by
      cases b
      simp_all [Board.afterReads, responseBytes]
    simp only [List.length_nil, Nat.zero_add, Nat.add_zero, List.map_nil, List.append_nil,
      List.take_append_drop, Nat.mul_zero, hb]
  | cons t pre ih =>
    have ht := hpre t (List.mem_cons_self _ _)
    have hlen : i < data.length := by simp at hi; omega
    rw [show (t :: pre).length + m = (pre.length + m) + 1 by simp; omega,
      readWords_loop_step _ _ _ _ t (responseBytes pre ++ rest) ht.1
        (by rw [hin, responseBytes_cons, List.append_assoc]),
      if_neg (by simpa using ht.2.symm),
      ih (fun t h => hpre t (List.mem_cons_of_mem _ h)) (i + 1) _ _ (by simp [Board.afterReads])
        (by simp at hi ⊢; omega),
      afterReads_afterReads, take_succ_set _ _ _ hlen, List.drop_set_of_lt _ _ (by omega)]
    have e1 : i + 1 + pre.length = i + (pre.length + 1) := by omega
    have e2 : 3 + 3 * pre.length = 3 * (pre.length + 1) := by omega
    simp only [e1, e2, List.length_cons, List.map_cons, List.append_assoc, List.singleton_append]

end SGP4x_7Semi

namespace SGP4x_7Semi

theorem readWords_count_mismatch (self : SGP4x_7Semi) (b : Board) (data : List Nat) (N : Nat)
    (h : b.granted.headD 0 ≠ (N * 3) % 256) :
    self.readWords b data N =
      (false, data, { b with
        calls := b.calls ++ [Call.requestFrom self.address ((N * 3) % 256)]
        granted := b.granted.tail }) := by
  simp only [readWords, Board.requestFrom, Board.log, ne_eq, h, not_false_eq_true, if_true]

theorem readWords_count_match (self : SGP4x_7Semi) (b : Board) (data : List Nat) (N : Nat)
    (h : b.granted.headD 0 = (N * 3) % 256) :
    self.readWords b data N =
      readWords_loop N 0 data (b.requestFrom self.address ((N * 3) % 256)).2 := by
  simp only [readWords, Board.requestFrom, Board.log, ne_eq, h, not_true_eq_false, if_false]

theorem readWords_all_valid (self : SGP4x_7Semi) (b : Board) (data : List Nat) (ts : List Triplet)
    (rest : List Int) (hlen : ts.length ≤ data.length) (hts : ∀ t ∈ ts, t.isBytes ∧ t.valid)
    (hin : b.incoming = responseBytes ts ++ rest)
    (h : b.granted.headD 0 = (ts.length * 3) % 256) :
    self.readWords b data ts.length =
      (true, ts.map Triplet.word ++ data.drop ts.length,
        (b.requestFrom self.address ((ts.length * 3) % 256)).2.afterReads (3 * ts.length) rest) := by
  rw [readWords_count_match _ _ _ _ h]
  have := readWords_loop_prefix ts hts 0 0 data (b.requestFrom self.address ((ts.length * 3) % 256)).2
    rest (by simpa [Board.requestFrom, Board.log] using hin) (by simpa using hlen)
  simpa [readWords_loop] using this

theorem readWords_first_bad (self : SGP4x_7Semi) (b : Board) (data : List Nat)
    (pre : List Triplet) (bad : Triplet) (post : List Triplet) (rest : List Int) (N : Nat)
    (hN : N = pre.length + (post.length + 1)) (hlen : N ≤ data.length)
    (hpre : ∀ t ∈ pre, t.isBytes ∧ t.valid) (hbad : bad.isBytes) (hcrc : ¬ bad.valid)
    (hin : b.incoming = responseBytes (pre ++ bad :: post) ++ rest)
    (h : b.granted.headD 0 = (N * 3) % 256) :
    self.readWords b data N =
      (false, pre.map Triplet.word ++ data.drop pre.length,
        (b.requestFrom self.address ((N * 3) % 256)).2.afterReads
          (3 * pre.length + 3) (responseBytes post ++ rest)) := by
  rw [readWords_count_match _ _ _ _ h]
  have hb : responseBytes (pre ++ bad :: post) ++ rest =
      responseBytes pre ++ (responseBytes [bad] ++ (responseBytes post ++ rest)) := by
    simp [responseBytes]
  have := readWords_loop_prefix pre hpre (post.length + 1) 0 data
    (b.requestFrom self.address ((N * 3) % 256)).2 _
    (by simpa [Board.requestFrom, Board.log, hb] using hin) (by omega)
  rw [hN] at this ⊢
  rw [this, readWords_loop_step _ _ _ _ bad (responseBytes post ++ rest) hbad
    (by simp [Board.afterReads]), if_pos (fun hh => hcrc hh.symm), afterReads_afterReads]
  simp only [List.take_zero, List.nil_append, Nat.zero_add]

set_option maxRecDepth 100000 in
theorem generateCRC_bit_inv_eq : ∀ x < 256, generateCRC_bit_inv (generateCRC_bit x) = x := by
  decide

theorem generateCRC_bits_inj (n : Nat) {x y : Nat} (hx : x < 256) (hy : y < 256)
    (h : generateCRC_bits n x = generateCRC_bits n y) : x = y := by
  induction n generalizing x y with
  | zero => simpa [generateCRC_bits] using h
  | succ n ih =>
    have := ih (generateCRC_bit_lt x) (generateCRC_bit_lt y) h
    rw [← generateCRC_bit_inv_eq x hx, ← generateCRC_bit_inv_eq y hy, this]

theorem generateCRC_pair (m l : Nat) :
    generateCRC [m, l] 2 =
      generateCRC_bits 8 ((generateCRC_bits 8 ((0xFF ^^^ m) % 256) ^^^ l) % 256) := rfl

/-- Two byte pairs with the same checksum that agree in one byte agree in the other. -/
theorem generateCRC_pair_inj {m l m' l' : Nat} (hm : m < 256) (hl : l < 256) (hm' : m' < 256)
    (hl' : l' < 256) (h : generateCRC [m, l] 2 = generateCRC [m', l'] 2) :
    (l = l' → m = m') ∧ (m = m' → l = l') := by
  rw [generateCRC_pair, generateCRC_pair] at h
  have h255 : (0xFF : Nat) < 256 := by norm_num
  have a1 := xor_lt_256 h255 hm
  have a2 := xor_lt_256 h255 hm'
  rw [Nat.mod_eq_of_lt a1, Nat.mod_eq_of_lt a2] at h
  have b1 := generateCRC_bits_lt 8 _ a1
  have b2 := generateCRC_bits_lt 8 _ a2
  have c1 := xor_lt_256 b1 hl
  have c2 := xor_lt_256 b2 hl'
  rw [Nat.mod_eq_of_lt c1, Nat.mod_eq_of_lt c2] at h
  have h2 := generateCRC_bits_inj 8 c1 c2 h
  constructor
  · intro e
    subst e
    exact Nat.xor_right_injective (generateCRC_bits_inj 8 a1 a2 (Nat.xor_left_injective h2))
  · intro e
    subst e
    exact Nat.xor_right_injective h2

theorem flipBit_ne (x k : Nat) : flipBit x k ≠ x := by
  intro h
  have h0 : x ^^^ (1 <<< k) = x ^^^ 0 := by simpa [flipBit] using h
  have := Nat.xor_right_injective h0
  rw [Nat.shiftLeft_eq, Nat.one_mul] at this
  exact (Nat.pos_pow_of_pos k (by norm_num)).ne' this

theorem flipBit_lt {x k : Nat} (hx : x < 256) (hk : k < 8) : flipBit x k < 256 := by
  apply xor_lt_256 hx
  rw [Nat.shiftLeft_eq, Nat.one_mul]
  calc 2 ^ k < 2 ^ 8 := Nat.pow_lt_pow_right (by norm_num) hk
    _ = 256 := by norm_num

/-- A valid triplet with one data bit inverted is a triplet of bytes whose checksum no
longer matches. -/
theorem corrupt_invalid (t : Triplet) (inLsb : Bool) (k : Nat) (hb : t.isBytes) (hv : t.valid)
    (hk : k < 8) : (t.corrupt inLsb k).isBytes ∧ ¬ (t.corrupt inLsb k).valid ∧
      (t.corrupt inLsb k).crc = t.crc := by
  obtain ⟨h1, h2, h3⟩ := hb
  cases inLsb
  · refine ⟨⟨flipBit_lt h1 hk, h2, h3⟩, ?_, rfl⟩
    intro hv'
    have e : generateCRC [t.msb, t.lsb] 2 = generateCRC [flipBit t.msb k, t.lsb] 2 :=
      hv.symm.trans hv'
    exact flipBit_ne _ _ ((generateCRC_pair_inj h1 h2 (flipBit_lt h1 hk) h2 e).1 rfl).symm
  · refine ⟨⟨h1, flipBit_lt h2 hk, h3⟩, ?_, rfl⟩
    intro hv'
    have e : generateCRC [t.msb, t.lsb] 2 = generateCRC [t.msb, flipBit t.lsb k] 2 :=
      hv.symm.trans hv'
    exact flipBit_ne _ _ ((generateCRC_pair_inj h1 h2 h1 (flipBit_lt h2 hk) e).2 rfl).symm

end SGP4x_7Semi

/-- C3: when the transport reports the requested byte count and every received triplet
carries the checksum of its two data bytes, `readWords` returns true and output word `i` is
`256 * msb_i + lsb_i` for every `i < N` (the words after them are untouched); when the
transport reports any other byte count, `readWords` returns false with no `read` call and
the output array unchanged. -/
theorem readWords_valid_response (self : SGP4x_7Semi) (b : Board) (data : List Nat)
    (ts : List Triplet) (rest : List Int) (hlen : ts.length ≤ data.length)
    (hts : ∀ t ∈ ts, t.isBytes ∧ t.valid) (hin : b.incoming = responseBytes ts ++ rest)
    (hcount : b.granted.headD 0 = (ts.length * 3) % 256) :
    self.readWords b data ts.length =
      (true, ts.map Triplet.word ++ data.drop ts.length,
        { b with
          calls := b.calls ++ [Call.requestFrom self.address ((ts.length * 3) % 256)] ++
            List.replicate (3 * ts.length) Call.read
          granted := b.granted.tail
          incoming := rest }) ∧
    (∀ i (hi : i < ts.length), (self.readWords b data ts.length).2.1[i]? =
      some (256 * ts[i].msb + ts[i].lsb)) ∧
    (∀ (b0 : Board) (data0 : List Nat) (N : Nat), b0.granted.headD 0 ≠ (N * 3) % 256 →
      self.readWords b0 data0 N =
        (false, data0, { b0 with
          calls := b0.calls ++ [Call.requestFrom self.address ((N * 3) % 256)]
          granted := b0.granted.tail })) := by
  have h := SGP4x_7Semi.readWords_all_valid self b data ts rest hlen hts hin hcount
  refine ⟨?_, ?_, fun b0 data0 N h0 => SGP4x_7Semi.readWords_count_mismatch self b0 data0 N h0⟩
  · rw [h]
    simp [Board.afterReads, Board.requestFrom, Board.log]
  · intro i hi
    rw [h]
    simp [List.getElem?_append_left, hi, Triplet.word]

theorem readWords_valid_response_witness :
    (SGP4x_7Semi.create SGP4x_7Semi.SGP4x.SGP41_SENSOR).readWords
        ⟨[], [], [6], [0xBE, 0xEF, 0x92, 0x12, 0x34, 0x37]⟩ [0, 0] 2 =
      (true, [0xBEEF, 0x1234],
        ⟨[Call.requestFrom 0 6, Call.read, Call.read, Call.read, Call.read, Call.read, Call.read],
          [], [], []⟩) :=
  (readWords_valid_response (SGP4x_7Semi.create SGP4x_7Semi.SGP4x.SGP41_SENSOR)
    ⟨[], [], [6], [0xBE, 0xEF, 0x92, 0x12, 0x34, 0x37]⟩ [0, 0]
    [⟨0xBE, 0xEF, 0x92⟩, ⟨0x12, 0x34, 0x37⟩] [] (by decide) (by decide) (by decide) (by decide)).1

/-- C4: in a valid response, inverting one bit of one data byte of word `j` and leaving the
checksum byte as it was makes the read fail: the checksum of the corrupted pair differs
from the transmitted one, `readWords` returns false, and output slot `j` keeps its old
content. -/
theorem readWords_bit_flip (self : SGP4x_7Semi) (b : Board) (data : List Nat)
    (ts : List Triplet) (rest : List Int) (j : Nat) (inLsb : Bool) (k : Nat)
    (hts : ∀ t ∈ ts, t.isBytes ∧ t.valid) (hj : j < ts.length) (hk : k < 8)
    (hlen : ts.length ≤ data.length)
    (hin : b.incoming = responseBytes (ts.set j (ts[j].corrupt inLsb k)) ++ rest) :
    SGP4x_7Semi.generateCRC [(ts[j].corrupt inLsb k).msb, (ts[j].corrupt inLsb k).lsb] 2 ≠ ts[j].crc ∧
    (self.readWords b data ts.length).1 = false ∧
    (self.readWords b data ts.length).2.1[j]? = data[j]? := by
  obtain ⟨hb, hv⟩ := hts _ (List.getElem_mem hj)
  obtain ⟨cb, cv, cc⟩ := SGP4x_7Semi.corrupt_invalid ts[j] inLsb k hb hv hk
  refine ⟨fun h => cv (by rw [Triplet.valid, cc]; exact h.symm), ?_⟩
  by_cases hcount : b.granted.headD 0 = (ts.length * 3) % 256
  · have hset : ts.set j (ts[j].corrupt inLsb k) =
        ts.take j ++ ts[j].corrupt inLsb k :: ts.drop (j + 1) := by
      rw [List.set_eq_take_append_cons_drop, if_pos hj]
    rw [hset] at hin
    have hpre : ∀ t ∈ ts.take j, t.isBytes ∧ t.valid := fun t ht => hts t (List.mem_of_mem_take ht)
    have hr := SGP4x_7Semi.readWords_first_bad self b data (ts.take j) _ (ts.drop (j + 1)) rest
      ts.length (by simp; omega) hlen hpre cb cv hin hcount
    rw [hr]
    refine ⟨rfl, ?_⟩
    have hl : (ts.take j).length = j := by simp; omega
    simp only [hl]
    rw [List.getElem?_append_right (by simp)]
    simp only [List.length_map, hl, Nat.sub_self, List.getElem?_drop, Nat.add_zero]
  · rw [SGP4x_7Semi.readWords_count_mismatch self b data _ hcount]
    exact ⟨rfl, rfl⟩

theorem readWords_bit_flip_witness :
    SGP4x_7Semi.generateCRC [0xBE, 0xEE] 2 ≠ 0x92 ∧
    ((SGP4x_7Semi.create SGP4x_7Semi.SGP4x.SGP40_SENSOR).readWords
        ⟨[], [], [3], [0xBE, 0xEE, 0x92]⟩ [7] 1).1 = false ∧
    ((SGP4x_7Semi.create SGP4x_7Semi.SGP4x.SGP40_SENSOR).readWords
        ⟨[], [], [3], [0xBE, 0xEE, 0x92]⟩ [7] 1).2.1[0]? = some 7 := by
  have h1 : ∀ t ∈ [(⟨0xBE, 0xEF, 0x92⟩ : Triplet)], t.isBytes ∧ t.valid := by decide
  have h2 : (0 : Nat) < [(⟨0xBE, 0xEF, 0x92⟩ : Triplet)].length := by decide
  have h3 : [(⟨0xBE, 0xEF, 0x92⟩ : Triplet)].length ≤ [7].length := by decide
  have h := readWords_bit_flip (SGP4x_7Semi.create SGP4x_7Semi.SGP4x.SGP40_SENSOR)
    ⟨[], [], [3], [0xBE, 0xEE, 0x92]⟩ [7] [⟨0xBE, 0xEF, 0x92⟩] [] 0 true 0 h1 h2 (by decide) h3
    (by simp [responseBytes, Triplet.corrupt, flipBit])
  simpa [Triplet.corrupt, flipBit] using h

/-- C5 fails as stated: with a byte count that matches and a second triplet whose checksum
is wrong, `readWords` returns false after it has stored the first word. -/
theorem readWords_partial_output :
    ¬ (⟨0, 0, 0⟩ : Triplet).valid ∧
    (SGP4x_7Semi.create SGP4x_7Semi.SGP4x.SGP41_SENSOR).readWords
        ⟨[], [], [6], [0xBE, 0xEF, 0x92, 0, 0, 0]⟩ [0, 0] 2 =
      (false, [0xBEEF, 0],
        ⟨[Call.requestFrom 0 6, Call.read, Call.read, Call.read, Call.read, Call.read, Call.read],
          [], [], []⟩) := by
  decide

/-- C5, amended: when the first word whose checksum byte disagrees with `generateCRC` of
its two data bytes is word `pre.length`, `readWords` returns false, that word and all later
output words are not modified, and (if the transport reported the requested byte count)
the output words before it hold their decoded values; if the byte count differs no output
word is modified. -/
theorem readWords_checksum_mismatch (self : SGP4x_7Semi) (b : Board) (data : List Nat)
    (pre : List Triplet) (bad : Triplet) (post : List Triplet) (rest : List Int)
    (hlen : (pre ++ bad :: post).length ≤ data.length)
    (hpre : ∀ t ∈ pre, t.isBytes ∧ t.valid) (hbad : bad.isBytes) (hcrc : ¬ bad.valid)
    (hin : b.incoming = responseBytes (pre ++ bad :: post) ++ rest) :
    (self.readWords b data (pre ++ bad :: post).length).1 = false ∧
    (self.readWords b data (pre ++ bad :: post).length).2.1.drop pre.length =
      data.drop pre.length ∧
    (self.readWords b data (pre ++ bad :: post).length).2.1.length = data.length ∧
    (b.granted.headD 0 = ((pre ++ bad :: post).length * 3) % 256 →
      (self.readWords b data (pre ++ bad :: post).length).2.1.take pre.length =
        pre.map Triplet.word) ∧
    (b.granted.headD 0 ≠ ((pre ++ bad :: post).length * 3) % 256 →
      (self.readWords b data (pre ++ bad :: post).length).2.1 = data) := by
  have hl : pre.length ≤ data.length := by simp at hlen; omega
  by_cases hcount : b.granted.headD 0 = ((pre ++ bad :: post).length * 3) % 256
  · have hr := SGP4x_7Semi.readWords_first_bad self b data pre bad post rest _ (by simp) hlen
      hpre hbad hcrc hin hcount
    rw [hr]
    refine ⟨rfl, ?_, ?_, fun _ => ?_, fun h => absurd hcount h⟩
    · simp [List.drop_append_eq_append_drop]
    · simp; omega
    · simp [List.take_append_eq_append_take]
  · rw [SGP4x_7Semi.readWords_count_mismatch self b data _ hcount]
    exact ⟨rfl, rfl, rfl, fun h => absurd h hcount, fun _ => rfl⟩

theorem readWords_checksum_mismatch_witness :
    ((SGP4x_7Semi.create SGP4x_7Semi.SGP4x.SGP41_SENSOR).readWords
        ⟨[], [], [6], [0xBE, 0xEF, 0x92, 0, 0, 0]⟩ [5, 9] 2).1 = false ∧
    ((SGP4x_7Semi.create SGP4x_7Semi.SGP4x.SGP41_SENSOR).readWords
        ⟨[], [], [6], [0xBE, 0xEF, 0x92, 0, 0, 0]⟩ [5, 9] 2).2.1.drop 1 = [9] :=
  have h := readWords_checksum_mismatch (SGP4x_7Semi.create SGP4x_7Semi.SGP4x.SGP41_SENSOR)
    ⟨[], [], [6], [0xBE, 0xEF, 0x92, 0, 0, 0]⟩ [5, 9] [⟨0xBE, 0xEF, 0x92⟩] ⟨0, 0, 0⟩ [] []
    (by decide) (by decide) (by decide) (by decide) (by decide)
  ⟨h.1, h.2.1⟩

/-! ## Failure leaves the object alone -/

namespace SGP4x_7Semi

/-- A failed read of one word leaves the word as it was. -/
theorem readWords_one_false (self : SGP4x_7Semi) (b : Board) (v : Nat)
    (h : (self.readWords b [v] 1).1 = false) : (self.readWords b [v] 1).2.1 = [v] := by
  unfold readWords at h ⊢
  simp only [readWords_loop] at h ⊢
  split
  · rfl
  · rename_i hc
    rw [if_neg hc] at h
    split
    · rfl
    · rename_i hcrc
      rw [if_neg hcrc] at h
      exact absurd h (by simp)

theorem readRawSignalSGP40_false (self : SGP4x_7Semi) (b : Board) (voc : Nat)
    (h : (self.readRawSignalSGP40 b voc).ok = false) :
    (self.readRawSignalSGP40 b voc).self = self ∧ (self.readRawSignalSGP40 b voc).out = voc := by
  unfold readRawSignalSGP40 at h ⊢
  dsimp only at h ⊢
  split_ifs at h ⊢ with h1 h2 h3
  · exact ⟨rfl, rfl⟩
  · exact ⟨rfl, rfl⟩
  · have h3' : (self.readWords ((self.writeCommand b CMD_SGP40_MEASURE_RAW
        [default_humidity_ticks, default_temperature_ticks] 2).2.delay SGP40_DELAY_MS)
        [self.voc_raw] 1).1 = false := by simpa using h3
    rw [readWords_one_false _ _ _ h3']
    exact ⟨rfl, rfl⟩

theorem readRawSignalSGP41Comp_false (self : SGP4x_7Semi) (b : Board) (hum t : Float32)
    (voc nox : Nat) (h : (self.readRawSignalSGP41Comp b hum t voc nox).ok = false) :
    (self.readRawSignalSGP41Comp b hum t voc nox).self = self ∧
    (self.readRawSignalSGP41Comp b hum t voc nox).voc = voc ∧
    (self.readRawSignalSGP41Comp b hum t voc nox).nox = nox := by
  unfold readRawSignalSGP41Comp at h ⊢
  dsimp only at h ⊢
  split_ifs at h ⊢ with h1 h2 h3 <;> exact ⟨rfl, rfl, rfl⟩

theorem executeConditioning_self (self : SGP4x_7Semi) (b : Board) (hum t : Float32) (v : Nat) :
    (self.executeConditioning b hum t v).self = self := by
  unfold executeConditioning
  dsimp only
  split_ifs <;> rfl

end SGP4x_7Semi

/-- C6: whenever one of the public operations that report success returns false, for
whatever reason, the cached raw VOC and raw NOx values are what they were before the
call. -/
theorem failure_keeps_cache (op : Op) (self : SGP4x_7Semi) (b : Board)
    (h : (op.run self b).ok = false) :
    (op.run self b).self.voc_raw = self.voc_raw ∧
    (op.run self b).self.nox_raw = self.nox_raw := by
  have key : (op.run self b).self = self := by
    cases op with
    | executeConditioning hum t v => exact SGP4x_7Semi.executeConditioning_self self b hum t v
    | readVOC voc =>
      simp only [Op.run, Outcome.of1, SGP4x_7Semi.readVOC] at h ⊢
      split at h
      · exact (SGP4x_7Semi.readRawSignalSGP40_false self b voc h).1
      · exact (SGP4x_7Semi.readRawSignalSGP41Comp_false self b 50 25 voc 0 h).1
    | readVOCComp hum t voc =>
      simp only [Op.run, Outcome.of1, SGP4x_7Semi.readVOCComp] at h ⊢
      split at h
      · exact (SGP4x_7Semi.readRawSignalSGP40_false self b voc h).1
      · exact (SGP4x_7Semi.readRawSignalSGP41Comp_false self b hum t voc 0 h).1
    | readRawSignalSGP41 voc nox =>
      exact (SGP4x_7Semi.readRawSignalSGP41Comp_false self b 50 25 voc nox h).1
    | readRawSignalSGP41Comp hum t voc nox =>
      exact (SGP4x_7Semi.readRawSignalSGP41Comp_false self b hum t voc nox h).1
    | readRawSignalSGP40 voc => exact (SGP4x_7Semi.readRawSignalSGP40_false self b voc h).1
  rw [key]
  exact ⟨rfl, rfl⟩

theorem failure_keeps_cache_witness :
    ((Op.readRawSignalSGP40 5).run ⟨some 0, 0x59, true, SGP4x_7Semi.SGP4x.SGP40_SENSOR, 77, 9, 0⟩
        ⟨[], [0], [3], [0xBE, 0xEF, 0x00]⟩).ok = false ∧
    ((Op.readRawSignalSGP40 5).run ⟨some 0, 0x59, true, SGP4x_7Semi.SGP4x.SGP40_SENSOR, 77, 9, 0⟩
        ⟨[], [0], [3], [0xBE, 0xEF, 0x00]⟩).self.voc_raw = 77 ∧
    ((Op.readRawSignalSGP40 5).run ⟨some 0, 0x59, true, SGP4x_7Semi.SGP4x.SGP40_SENSOR, 77, 9, 0⟩
        ⟨[], [0], [3], [0xBE, 0xEF, 0x00]⟩).self.nox_raw = 9 :=
  ⟨by decide, failure_keeps_cache (Op.readRawSignalSGP40 5)
    ⟨some 0, 0x59, true, SGP4x_7Semi.SGP4x.SGP40_SENSOR, 77, 9, 0⟩
    ⟨[], [0], [3], [0xBE, 0xEF, 0x00]⟩ (by decide)⟩

/-! ## Guards -/

namespace SGP4x_7Semi

/-- Before `begin`, a call fails at its guard: nothing happens on the board, the object and
the caller's variables stay as they were. -/
theorem run_uninitialized (op : Op) (self : SGP4x_7Semi) (b : Board)
    (h : self._initialized = false) :
    (op.run self b).ok = false ∧ (op.run self b).outs = op.outs ∧ (op.run self b).self = self ∧
      (op.run self b).board = b := by
  cases op <;>
    simp only [Op.run, Op.outs, Outcome.of1, Outcome.of2, readVOC, readVOCComp, readRawSignalSGP41,
      readRawSignalSGP41Comp, readRawSignalSGP40, executeConditioning, h] <;>
    first
      | exact ⟨rfl, rfl, rfl, rfl⟩
      | (split <;> exact ⟨rfl, rfl, rfl, rfl⟩)

end SGP4x_7Semi

/-- C7: on an object of either variant on which `begin` has not been called, however many
operations have been attempted before, each of `executeConditioning`, `readVOC`,
`readVOCComp`, `readRawSignalSGP41`, `readRawSignalSGP41Comp` and `readRawSignalSGP40`
returns false for all arguments, makes no call on the board (no bus write, delay or bus
read), and leaves the object (cached raw VOC and NOx both still 0) and the caller's output
variables unchanged. -/
theorem uninitialized_fails_fast (model : SGP4x_7Semi.SGP4x) (before : List Op) (op : Op)
    (b : Board) :
    Op.runAll before (SGP4x_7Semi.create model) b = (SGP4x_7Semi.create model, b) ∧
    (op.run (SGP4x_7Semi.create model) b).ok = false ∧
    (op.run (SGP4x_7Semi.create model) b).board = b ∧
    (op.run (SGP4x_7Semi.create model) b).outs = op.outs ∧
    (op.run (SGP4x_7Semi.create model) b).self = SGP4x_7Semi.create model ∧
    (op.run (SGP4x_7Semi.create model) b).self.voc_raw = 0 ∧
    (op.run (SGP4x_7Semi.create model) b).self.nox_raw = 0 := by
  have hop := fun o : Op => SGP4x_7Semi.run_uninitialized o (SGP4x_7Semi.create model) b rfl
  refine ⟨?_, (hop op).1, (hop op).2.2.2, (hop op).2.1, (hop op).2.2.1, ?_, ?_⟩
  · induction before with
    | nil => rfl
    | cons o os ih => rw [Op.runAll, (hop o).2.2.1, (hop o).2.2.2, ih]
  · rw [(hop op).2.2.1]; rfl
  · rw [(hop op).2.2.1]; rfl

/-- C8: a variant-specific call on an object configured for the other variant (initialized
or not) fails at its guard: on an SGP40 object `executeConditioning`, `readRawSignalSGP41`
and `readRawSignalSGP41Comp` return false for all arguments, on an SGP41 object
`readRawSignalSGP40` returns false; no call is made on the board, and the object and the
output variables are unchanged. -/
theorem wrong_variant_rejected (self : SGP4x_7Semi) (b : Board) :
    (self.sensor_type = SGP4x_7Semi.SGP4x.SGP40_SENSOR →
      (∀ (h t : Float32) (v : Nat), self.executeConditioning b h t v = ⟨false, v, self, b⟩) ∧
      (∀ v n : Nat, self.readRawSignalSGP41 b v n = ⟨false, v, n, self, b⟩) ∧
      (∀ (h t : Float32) (v n : Nat),
        self.readRawSignalSGP41Comp b h t v n = ⟨false, v, n, self, b⟩)) ∧
    (self.sensor_type = SGP4x_7Semi.SGP4x.SGP41_SENSOR →
      ∀ v : Nat, self.readRawSignalSGP40 b v = ⟨false, v, self, b⟩) := by
  constructor
  · intro hs
    refine ⟨fun h t v => ?_, fun v n => ?_, fun h t v n => ?_⟩ <;>
      simp [SGP4x_7Semi.executeConditioning, SGP4x_7Semi.readRawSignalSGP41,
        SGP4x_7Semi.readRawSignalSGP41Comp, hs]
  · intro hs v
    simp [SGP4x_7Semi.readRawSignalSGP40, hs]

theorem wrong_variant_rejected_witness :
    ((SGP4x_7Semi.create SGP4x_7Semi.SGP4x.SGP40_SENSOR).begin ⟨[], [], [], []⟩ false 0x59 0 400000
        (-1) (-1)).2.1._initialized = true ∧
    ((SGP4x_7Semi.create SGP4x_7Semi.SGP4x.SGP40_SENSOR).begin ⟨[], [], [], []⟩ false 0x59 0 400000
        (-1) (-1)).2.1.readRawSignalSGP41 ⟨[], [0], [6], [1, 2, 3]⟩ 11 22 =
      ⟨false, 11, 22, ((SGP4x_7Semi.create SGP4x_7Semi.SGP4x.SGP40_SENSOR).begin ⟨[], [], [], []⟩
        false 0x59 0 400000 (-1) (-1)).2.1, ⟨[], [0], [6], [1, 2, 3]⟩⟩ :=
  ⟨rfl, ((wrong_variant_rejected ((SGP4x_7Semi.create SGP4x_7Semi.SGP4x.SGP40_SENSOR).begin
    ⟨[], [], [], []⟩ false 0x59 0 400000 (-1) (-1)).2.1 ⟨[], [0], [6], [1, 2, 3]⟩).1 rfl).2.1 11 22⟩

/-! ## Binary32 rounding -/

theorem roundHalfEven_sub_le (q : ℚ) : |(roundHalfEven q : ℚ) - q| ≤ 1 / 2 := by
  have h1 := Int.floor_le q
  have h2 := Int.lt_floor_add_one q
  unfold roundHalfEven
  rw [abs_le]
  split_ifs <;> push_cast <;> constructor <;> linarith

theorem roundHalfEven_intCast (n : ℤ) : roundHalfEven (n : ℚ) = n := by
  simp [roundHalfEven]

theorem roundHalfEven_of_lt (q : ℚ) (z : ℤ) (h1 : (z : ℚ) ≤ q) (h2 : q < z + 1 / 2) :
    roundHalfEven q = z := by
  have hf : ⌊q⌋ = z := Int.floor_eq_iff.2 ⟨h1, by linarith⟩
  unfold roundHalfEven
  rw [hf, if_pos (by linarith)]

theorem roundHalfEven_of_gt (q : ℚ) (z : ℤ) (h1 : (z : ℚ) + 1 / 2 < q) (h2 : q < z + 1) :
    roundHalfEven q = z + 1 := by
  have hf : ⌊q⌋ = z := Int.floor_eq_iff.2 ⟨by linarith, h2⟩
  unfold roundHalfEven
  rw [hf, if_neg (by linarith), if_pos (by linarith)]

theorem roundHalfEven_tie_even (q : ℚ) (z : ℤ) (h : q = z + 1 / 2) (hz : z % 2 = 0) :
    roundHalfEven q = z := by
  have hf : ⌊q⌋ = z := Int.floor_eq_iff.2 ⟨by linarith, by linarith⟩
  unfold roundHalfEven
  rw [hf, if_neg (by linarith), if_neg (by linarith), if_pos hz]

theorem ulp_pos (x : ℚ) : 0 < ulp x := by
  unfold ulp
  positivity

theorem ulp_eq (x : ℚ) (e : ℤ) (h1 : (2 : ℚ) ^ e ≤ |x|) (h2 : |x| < (2 : ℚ) ^ (e + 1))
    (he : -126 ≤ e) : ulp x = (2 : ℚ) ^ (e - 23) := by
  have hpos : 0 < |x| := lt_of_lt_of_le (by positivity) h1
  have hlog : Int.log 2 |x| = e := by
    apply le_antisymm
    · have := (Int.lt_zpow_iff_log_lt (b := 2) (by norm_num) (x := e + 1) hpos).1 (by simpa using h2)
      omega
    · exact (Int.zpow_le_iff_le_log (b := 2) (by norm_num) hpos).1 (by simpa using h1)
  unfold ulp
  rw [hlog, max_eq_left he]

theorem ulp_le (x : ℚ) (k : ℤ) (hx : x ≠ 0) (hk : -125 ≤ k) (h : |x| < (2 : ℚ) ^ k) :
    ulp x ≤ (2 : ℚ) ^ (k - 24) := by
  have hpos : 0 < |x| := abs_pos.2 hx
  have hlog : Int.log 2 |x| < k :=
    (Int.lt_zpow_iff_log_lt (b := 2) (by norm_num) hpos).1 (by simpa using h)
  unfold ulp
  apply zpow_le_zpow_right₀ (by norm_num)
  have := max_le (show Int.log 2 |x| ≤ k - 1 by omega) (show (-126 : ℤ) ≤ k - 1 by omega)
  omega

theorem f32_zero : f32 0 = 0 := by
  simp [f32, roundHalfEven]

theorem f32_sub_le (x : ℚ) (k : ℤ) (hk : -125 ≤ k) (h : |x| < (2 : ℚ) ^ k) :
    |f32 x - x| ≤ (2 : ℚ) ^ (k - 25) := by
  by_cases hx : x = 0
  · subst hx
    rw [f32_zero]
    simp
    positivity
  · have hu := ulp_pos x
    have hle := ulp_le x k hx hk h
    have hr := roundHalfEven_sub_le (x / ulp x)
    have e : f32 x - x = ((roundHalfEven (x / ulp x) : ℚ) - x / ulp x) * ulp x := by
      unfold f32
      field_simp
    rw [e, abs_mul, abs_of_pos hu]
    have h25 : (2 : ℚ) ^ (k - 25) = 1 / 2 * (2 : ℚ) ^ (k - 24) := by
      rw [show k - 24 = (k - 25) + 1 by ring, zpow_add_one₀ (by norm_num)]
      ring
    rw [h25]
    exact mul_le_mul hr hle hu.le (by norm_num)

/-- A value with at most 24 significant bits in its binade is a binary32 number: rounding
leaves it as it is. -/
theorem f32_exact (x : ℚ) (e n : ℤ) (h1 : (2 : ℚ) ^ e ≤ |x|) (h2 : |x| < (2 : ℚ) ^ (e + 1))
    (he : -126 ≤ e) (hn : x = n * (2 : ℚ) ^ (e - 23)) : f32 x = x := by
  have hu := ulp_eq x e h1 h2 he
  have hpos : (0 : ℚ) < (2 : ℚ) ^ (e - 23) := by positivity
  unfold f32
  rw [hu]
  have : x / (2 : ℚ) ^ (e - 23) = n := by
    rw [hn]
    field_simp
  rw [this, roundHalfEven_intCast, ← hn]

theorem f32_of_round (x : ℚ) (e z : ℤ) (h1 : (2 : ℚ) ^ e ≤ |x|) (h2 : |x| < (2 : ℚ) ^ (e + 1))
    (he : -126 ≤ e) (hz : roundHalfEven (x / (2 : ℚ) ^ (e - 23)) = z) :
    f32 x = z * (2 : ℚ) ^ (e - 23) := by
  unfold f32
  rw [ulp_eq x e h1 h2 he, hz]

theorem toUint16_eq_floor (s : ℚ) (h0 : 0 ≤ s) (h1 : s < 65536) :
    ((toUint16 s : ℕ) : ℤ) = ⌊s⌋ ∧ toUint16 s ≤ 65535 := by
  have hf0 : 0 ≤ ⌊s⌋ := Int.floor_nonneg.2 h0
  have hf1 : ⌊s⌋ < 65536 := Int.floor_lt.2 (by exact_mod_cast h1)
  unfold toUint16
  rw [if_pos h0]
  omega

namespace SGP4x_7Semi

/-- Accuracy of the binary32 evaluation in `humidityToTicks` for a clamped input. -/
theorem humidity_value_close (c : ℚ) (h0 : 0 ≤ c) (h1 : c ≤ 100) :
    |f32 (f32 (f32 (c * 65535) / 100) + 1 / 2) - (c * 65535 / 100 + 1 / 2)| ≤ 1 / 64 := by
  have e1 := f32_sub_le (c * 65535) 23 (by norm_num)
    (by rw [abs_of_nonneg (by positivity)]; norm_num; linarith)
  norm_num at e1
  rw [abs_le] at e1
  have e2 := f32_sub_le (f32 (c * 65535) / 100) 16 (by norm_num)
    (by rw [abs_lt]; norm_num; constructor <;> linarith)
  norm_num at e2
  rw [abs_le] at e2
  have e3 := f32_sub_le (f32 (f32 (c * 65535) / 100) + 1 / 2) 16 (by norm_num)
    (by rw [abs_lt]; norm_num; constructor <;> linarith)
  norm_num at e3
  rw [abs_le] at e3
  rw [abs_le]
  constructor <;> linarith

end SGP4x_7Semi

theorem toUint16_of_floor (s : ℚ) (z : ℕ) (h1 : (z : ℚ) ≤ s) (h2 : s < z + 1) (hz : z < 65536) :
    toUint16 s = z := by
  have h0 : 0 ≤ s := le_trans (by positivity) h1
  have hf : ⌊s⌋ = (z : ℤ) := Int.floor_eq_iff.2 ⟨by exact_mod_cast h1, by exact_mod_cast h2⟩
  unfold toUint16
  rw [if_pos h0, hf]
  omega

theorem floor_close (s e : ℚ) (h : |s - e| ≤ 1 / 64) : |⌊s⌋ - ⌊e⌋| ≤ 1 := by
  have a1 := Int.floor_le s
  have a2 := Int.lt_floor_add_one s
  have b1 := Int.floor_le e
  have b2 := Int.lt_floor_add_one e
  rw [abs_le] at h ⊢
  have c1 : (⌊s⌋ : ℚ) < ⌊e⌋ + 2 := by linarith
  have c2 : (⌊e⌋ : ℚ) < ⌊s⌋ + 2 := by linarith
  have d1 : ⌊s⌋ < ⌊e⌋ + 2 := by exact_mod_cast c1
  have d2 : ⌊e⌋ < ⌊s⌋ + 2 := by exact_mod_cast c2
  constructor <;> omega

namespace SGP4x_7Semi

theorem humidityToTicks_eq (rh : Float32) :
    humidityToTicks rh =
      toUint16 (f32 (f32 (f32 (max 0 (min rh 100) * 65535) / 100) + 1 / 2)) := by
  have hc : (if (if rh < 0 then 0 else rh) > 100 then 100 else (if rh < 0 then 0 else rh)) =
      max 0 (min rh 100) := by
    by_cases h0 : rh < 0
    · rw [if_pos h0, if_neg (by norm_num), min_eq_left (by linarith), max_eq_left h0.le]
    · rw [if_neg h0]
      by_cases h1 : rh > 100
      · rw [if_pos h1, min_eq_right h1.le, max_eq_right (by norm_num)]
      · rw [if_neg h1, min_eq_left (not_lt.1 h1), max_eq_right (not_lt.1 h0)]
  unfold humidityToTicks
  simp only [hc]

theorem humidityToTicks_zero : humidityToTicks 0 = 0 := by
  rw [humidityToTicks_eq]
  have h12 : f32 (1 / 2) = 1 / 2 :=
    f32_exact (1 / 2) (-1) 8388608 (by norm_num [abs_of_pos]) (by norm_num [abs_of_pos])
      (by norm_num) (by norm_num)
  rw [min_eq_left (by norm_num), max_eq_left le_rfl, zero_mul, f32_zero, zero_div, f32_zero,
    zero_add, h12]
  exact toUint16_of_floor _ 0 (by norm_num) (by norm_num) (by norm_num)

theorem humidityToTicks_hundred : humidityToTicks 100 = 65535 := by
  rw [humidityToTicks_eq]
  have h1 : f32 (100 * 65535) = 6553500 := by
    rw [f32_exact (100 * 65535) 22 13107000 (by norm_num) (by norm_num [abs_of_pos])
      (by norm_num) (by norm_num)]
    norm_num
  have h2 : f32 (6553500 / 100) = 65535 := by
    rw [f32_exact (6553500 / 100) 15 16776960 (by norm_num) (by norm_num [abs_of_pos])
      (by norm_num) (by norm_num)]
    norm_num
  have h3 : f32 (65535 + 1 / 2) = 131071 / 2 := by
    rw [f32_exact (65535 + 1 / 2) 15 16777088 (by norm_num [abs_of_pos])
      (by norm_num [abs_of_pos]) (by norm_num) (by norm_num)]
    norm_num
  rw [max_eq_right (by norm_num), min_eq_right (by norm_num), h1, h2, h3]
  exact toUint16_of_floor _ 65535 (by norm_num) (by norm_num) (by norm_num)

end SGP4x_7Semi

/-- C9 fails as stated: 66.15625 is a binary32 number inside [0, 100]; the product
66.15625 * 65535 = 4335549.84375 is rounded to 4335550 by the binary32 multiplication, so the
code yields 43356 where the exact formula yields 43355. -/
theorem humidityToTicks_not_exact :
    f32 (2117 / 32) = 2117 / 32 ∧
    f32 (2117 / 32 * 65535) = 4335550 ∧
    SGP4x_7Semi.humidityToTicks (2117 / 32) = 43356 ∧
    humidityTicksExact (2117 / 32) = 43355 := by
  have h0 : f32 (2117 / 32) = 2117 / 32 :=
    f32_exact _ 6 8671232 (by norm_num [abs_of_pos]) (by norm_num [abs_of_pos]) (by norm_num)
      (by norm_num)
  have h1 : f32 (2117 / 32 * 65535) = 4335550 := by
    rw [f32_of_round _ 22 8671100 (by norm_num [abs_of_pos]) (by norm_num [abs_of_pos])
      (by norm_num) (by
        have := roundHalfEven_of_gt (2117 / 32 * 65535 / (2 : ℚ) ^ ((22 : ℤ) - 23)) 8671099
          (by norm_num) (by norm_num)
        simpa using this)]
    norm_num
  have h2 : f32 (4335550 / 100) = 86711 / 2 := by
    rw [f32_exact (4335550 / 100) 15 11099008 (by norm_num [abs_of_pos])
      (by norm_num [abs_of_pos]) (by norm_num) (by norm_num)]
    norm_num
  have h3 : f32 (86711 / 2 + 1 / 2) = 43356 := by
    rw [f32_exact (86711 / 2 + 1 / 2) 15 11099136 (by norm_num [abs_of_pos])
      (by norm_num [abs_of_pos]) (by norm_num) (by norm_num)]
    norm_num
  refine ⟨h0, h1, ?_, ?_⟩
  · rw [SGP4x_7Semi.humidityToTicks_eq, min_eq_left (by norm_num), max_eq_right (by norm_num),
      h1, h2, h3]
    exact toUint16_of_floor _ 43356 (by norm_num) (by norm_num) (by norm_num)
  · unfold humidityTicksExact
    rw [min_eq_left (by norm_num), max_eq_right (by norm_num)]
    exact Int.floor_eq_iff.2 ⟨by norm_num, by norm_num⟩

/-- C9, amended: `humidityToTicks(rh)` is the integer part of `c * 65535 / 100 + 1/2`
evaluated in binary32 arithmetic, `c` being `rh` clamped to [0, 100]; that value is within
1/64 of the exact one, so the result is the half-up rounding of the exact formula or one
tick beside it (the former whenever no intermediate result needs rounding), and lies in
0..65535; every `rh < 0` gives the ticks of 0, namely 0, and
every `rh > 100` gives the ticks of 100, namely 65535. -/
theorem humidityToTicks_close (rh : Float32) :
    ((SGP4x_7Semi.humidityToTicks rh : ℕ) : ℤ) =
      ⌊f32 (f32 (f32 (max 0 (min rh 100) * 65535) / 100) + 1 / 2)⌋ ∧
    |f32 (f32 (f32 (max 0 (min rh 100) * 65535) / 100) + 1 / 2) -
      (max 0 (min rh 100) * 65535 / 100 + 1 / 2)| ≤ 1 / 64 ∧
    |((SGP4x_7Semi.humidityToTicks rh : ℕ) : ℤ) - humidityTicksExact rh| ≤ 1 ∧
    SGP4x_7Semi.humidityToTicks rh ≤ 65535 ∧
    (f32 (max 0 (min rh 100) * 65535) = max 0 (min rh 100) * 65535 →
      f32 (max 0 (min rh 100) * 65535 / 100) = max 0 (min rh 100) * 65535 / 100 →
      f32 (max 0 (min rh 100) * 65535 / 100 + 1 / 2) = max 0 (min rh 100) * 65535 / 100 + 1 / 2 →
      ((SGP4x_7Semi.humidityToTicks rh : ℕ) : ℤ) = humidityTicksExact rh) ∧
    (rh < 0 → SGP4x_7Semi.humidityToTicks rh = SGP4x_7Semi.humidityToTicks 0) ∧
    SGP4x_7Semi.humidityToTicks 0 = 0 ∧
    (100 < rh → SGP4x_7Semi.humidityToTicks rh = SGP4x_7Semi.humidityToTicks 100) ∧
    SGP4x_7Semi.humidityToTicks 100 = 65535 := by
  have hc0 : (0 : ℚ) ≤ max 0 (min rh 100) := le_max_left _ _
  have hc1 : max 0 (min rh 100) ≤ (100 : ℚ) := max_le (by norm_num) (min_le_right _ _)
  have hclose := SGP4x_7Semi.humidity_value_close _ hc0 hc1
  have hb := abs_le.1 hclose
  have hs0 : 0 ≤ f32 (f32 (f32 (max 0 (min rh 100) * 65535) / 100) + 1 / 2) := by
    have : 0 ≤ max 0 (min rh 100) * 65535 / 100 := by positivity
    linarith [hb.1]
  have hs1 : f32 (f32 (f32 (max 0 (min rh 100) * 65535) / 100) + 1 / 2) < 65536 := by
    linarith [hb.2]
  have hfl := toUint16_eq_floor _ hs0 hs1
  rw [← SGP4x_7Semi.humidityToTicks_eq] at hfl
  refine ⟨hfl.1, hclose, ?_, hfl.2, fun e1 e2 e3 => ?_, fun h => ?_,
    SGP4x_7Semi.humidityToTicks_zero, fun h => ?_, SGP4x_7Semi.humidityToTicks_hundred⟩
  · rw [hfl.1]
    exact floor_close _ _ hclose
  · rw [hfl.1, e1, e2, e3]
    rfl
  · rw [SGP4x_7Semi.humidityToTicks_eq rh, SGP4x_7Semi.humidityToTicks_eq 0,
      min_eq_left (by linarith), max_eq_left h.le, min_eq_left (by norm_num), max_eq_left le_rfl]
  · rw [SGP4x_7Semi.humidityToTicks_eq rh, SGP4x_7Semi.humidityToTicks_eq 100,
      min_eq_right h.le, min_eq_right le_rfl]

namespace SGP4x_7Semi

/-- Accuracy of the binary32 evaluation in `temperatureToTicks` for a clamped input. -/
theorem temperature_value_close (c : ℚ) (h0 : -45 ≤ c) (h1 : c ≤ 130) :
    |f32 (f32 (f32 (f32 (c + 45) * 65535) / 175) + 1 / 2) - ((c + 45) * 65535 / 175 + 1 / 2)|
      ≤ 1 / 64 := by
  have e0 := f32_sub_le (c + 45) 8 (by norm_num)
    (by rw [abs_lt]; norm_num; constructor <;> linarith)
  norm_num at e0
  rw [abs_le] at e0
  have e1 := f32_sub_le (f32 (c + 45) * 65535) 24 (by norm_num)
    (by rw [abs_lt]; norm_num; constructor <;> linarith)
  norm_num at e1
  rw [abs_le] at e1
  have e2 := f32_sub_le (f32 (f32 (c + 45) * 65535) / 175) 16 (by norm_num)
    (by rw [abs_lt]; norm_num; constructor <;> linarith)
  norm_num at e2
  rw [abs_le] at e2
  have e3 := f32_sub_le (f32 (f32 (f32 (c + 45) * 65535) / 175) + 1 / 2) 16 (by norm_num)
    (by rw [abs_lt]; norm_num; constructor <;> linarith)
  norm_num at e3
  rw [abs_le] at e3
  rw [abs_le]
  constructor <;> linarith

theorem temperatureToTicks_eq (t : Float32) :
    temperatureToTicks t =
      toUint16 (f32 (f32 (f32 (f32 (max (-45) (min t 130) + 45) * 65535) / 175) + 1 / 2)) := by
  have hc : (if (if t < -45 then -45 else t) > 130 then 130 else (if t < -45 then -45 else t)) =
      max (-45) (min t 130) := by
    by_cases h0 : t < -45
    · rw [if_pos h0, if_neg (by norm_num), min_eq_left (by linarith), max_eq_left h0.le]
    · rw [if_neg h0]
      by_cases h1 : t > 130
      · rw [if_pos h1, min_eq_right h1.le, max_eq_right (by norm_num)]
      · rw [if_neg h1, min_eq_left (not_lt.1 h1), max_eq_right (not_lt.1 h0)]
  unfold temperatureToTicks
  simp only [hc]

theorem temperatureToTicks_low : temperatureToTicks (-45) = 0 := by
  rw [temperatureToTicks_eq]
  have h12 : f32 (1 / 2) = 1 / 2 :=
    f32_exact (1 / 2) (-1) 8388608 (by norm_num [abs_of_pos]) (by norm_num [abs_of_pos])
      (by norm_num) (by norm_num)
  rw [min_eq_left (by norm_num), max_eq_left le_rfl, neg_add_cancel, f32_zero, zero_mul, f32_zero,
    zero_div, f32_zero, zero_add, h12]
  exact toUint16_of_floor _ 0 (by norm_num) (by norm_num) (by norm_num)

theorem temperatureToTicks_high : temperatureToTicks 130 = 65535 := by
  rw [temperatureToTicks_eq]
  have h0 : f32 (130 + 45) = 175 := by
    rw [f32_exact (130 + 45) 7 11468800 (by norm_num [abs_of_pos]) (by norm_num [abs_of_pos])
      (by norm_num) (by norm_num)]
    norm_num
  have h1 : f32 (175 * 65535) = 11468625 := by
    rw [f32_exact (175 * 65535) 23 11468625 (by norm_num [abs_of_pos]) (by norm_num [abs_of_pos])
      (by norm_num) (by norm_num)]
    norm_num
  have h2 : f32 (11468625 / 175) = 65535 := by
    rw [f32_exact (11468625 / 175) 15 16776960 (by norm_num [abs_of_pos])
      (by norm_num [abs_of_pos]) (by norm_num) (by norm_num)]
    norm_num
  have h3 : f32 (65535 + 1 / 2) = 131071 / 2 := by
    rw [f32_exact (65535 + 1 / 2) 15 16777088 (by norm_num [abs_of_pos])
      (by norm_num [abs_of_pos]) (by norm_num) (by norm_num)]
    norm_num
  rw [max_eq_right (by norm_num), min_eq_right (by norm_num), h0, h1, h2, h3]
  exact toUint16_of_floor _ 65535 (by norm_num) (by norm_num) (by norm_num)

end SGP4x_7Semi

/-- C10 fails as stated: 112.5 is a binary32 number inside [-45, 130]; the product
157.5 * 65535 = 10321762.5 lies halfway between two binary32 numbers and is rounded to the
even one, 10321762, so the code yields 58981 where the exact formula yields 58982. -/
theorem temperatureToTicks_not_exact :
    f32 (225 / 2) = 225 / 2 ∧
    f32 (f32 (225 / 2 + 45) * 65535) = 10321762 ∧
    SGP4x_7Semi.temperatureToTicks (225 / 2) = 58981 ∧
    temperatureTicksExact (225 / 2) = 58982 := by
  have h : f32 (225 / 2) = 225 / 2 :=
    f32_exact _ 6 14745600 (by norm_num [abs_of_pos]) (by norm_num [abs_of_pos]) (by norm_num)
      (by norm_num)
  have h0 : f32 (225 / 2 + 45) = 315 / 2 := by
    rw [f32_exact (225 / 2 + 45) 7 10321920 (by norm_num [abs_of_pos])
      (by norm_num [abs_of_pos]) (by norm_num) (by norm_num)]
    norm_num
  have h1 : f32 (315 / 2 * 65535) = 10321762 := by
    rw [f32_of_round _ 23 10321762 (by norm_num [abs_of_pos]) (by norm_num [abs_of_pos])
      (by norm_num) (roundHalfEven_tie_even _ 10321762 (by norm_num) (by norm_num))]
    norm_num
  have h2 : f32 (10321762 / 175) = 15099263 / 256 := by
    rw [f32_of_round _ 15 15099263 (by norm_num [abs_of_pos]) (by norm_num [abs_of_pos])
      (by norm_num) (roundHalfEven_of_lt _ 15099263 (by norm_num) (by norm_num))]
    norm_num
  have h3 : f32 (15099263 / 256 + 1 / 2) = 15099391 / 256 := by
    rw [f32_exact (15099263 / 256 + 1 / 2) 15 15099391 (by norm_num [abs_of_pos])
      (by norm_num [abs_of_pos]) (by norm_num) (by norm_num)]
    norm_num
  refine ⟨h, by rw [h0, h1], ?_, ?_⟩
  · rw [SGP4x_7Semi.temperatureToTicks_eq, min_eq_left (by norm_num), max_eq_right (by norm_num),
      h0, h1, h2, h3]
    exact toUint16_of_floor _ 58981 (by norm_num) (by norm_num) (by norm_num)
  · unfold temperatureTicksExact
    rw [min_eq_left (by norm_num), max_eq_right (by norm_num)]
    exact Int.floor_eq_iff.2 ⟨by norm_num, by norm_num⟩

/-- C10, amended: `temperatureToTicks(t)` is the integer part of
`(c + 45) * 65535 / 175 + 1/2` evaluated in binary32 arithmetic, `c` being `t` clamped to
[-45, 130]; that value is within 1/64 of the exact one, so the result is the half-up
rounding of the exact formula or one tick beside it (the former whenever no intermediate
result needs rounding), and lies in 0..65535; every `t < -45`
gives the ticks of -45, namely 0, and every `t > 130` gives the ticks of 130, namely
65535. -/
theorem temperatureToTicks_close (t : Float32) :
    ((SGP4x_7Semi.temperatureToTicks t : ℕ) : ℤ) =
      ⌊f32 (f32 (f32 (f32 (max (-45) (min t 130) + 45) * 65535) / 175) + 1 / 2)⌋ ∧
    |f32 (f32 (f32 (f32 (max (-45) (min t 130) + 45) * 65535) / 175) + 1 / 2) -
      ((max (-45) (min t 130) + 45) * 65535 / 175 + 1 / 2)| ≤ 1 / 64 ∧
    |((SGP4x_7Semi.temperatureToTicks t : ℕ) : ℤ) - temperatureTicksExact t| ≤ 1 ∧
    SGP4x_7Semi.temperatureToTicks t ≤ 65535 ∧
    (f32 (max (-45) (min t 130) + 45) = max (-45) (min t 130) + 45 →
      f32 ((max (-45) (min t 130) + 45) * 65535) = (max (-45) (min t 130) + 45) * 65535 →
      f32 ((max (-45) (min t 130) + 45) * 65535 / 175) =
        (max (-45) (min t 130) + 45) * 65535 / 175 →
      f32 ((max (-45) (min t 130) + 45) * 65535 / 175 + 1 / 2) =
        (max (-45) (min t 130) + 45) * 65535 / 175 + 1 / 2 →
      ((SGP4x_7Semi.temperatureToTicks t : ℕ) : ℤ) = temperatureTicksExact t) ∧
    (t < -45 → SGP4x_7Semi.temperatureToTicks t = SGP4x_7Semi.temperatureToTicks (-45)) ∧
    SGP4x_7Semi.temperatureToTicks (-45) = 0 ∧
    (130 < t → SGP4x_7Semi.temperatureToTicks t = SGP4x_7Semi.temperatureToTicks 130) ∧
    SGP4x_7Semi.temperatureToTicks 130 = 65535 := by
  have hc0 : (-45 : ℚ) ≤ max (-45) (min t 130) := le_max_left _ _
  have hc1 : max (-45) (min t 130) ≤ (130 : ℚ) := max_le (by norm_num) (min_le_right _ _)
  have hclose := SGP4x_7Semi.temperature_value_close _ hc0 hc1
  have hb := abs_le.1 hclose
  have hs0 : 0 ≤ f32 (f32 (f32 (f32 (max (-45) (min t 130) + 45) * 65535) / 175) + 1 / 2) := by
    have : 0 ≤ (max (-45) (min t 130) + 45) * 65535 / 175 := by
      have : 0 ≤ max (-45) (min t 130) + 45 := by linarith
      positivity
    linarith [hb.1]
  have hs1 : f32 (f32 (f32 (f32 (max (-45) (min t 130) + 45) * 65535) / 175) + 1 / 2) < 65536 := by
    linarith [hb.2]
  have hfl := toUint16_eq_floor _ hs0 hs1
  rw [← SGP4x_7Semi.temperatureToTicks_eq] at hfl
  refine ⟨hfl.1, hclose, ?_, hfl.2, fun e0 e1 e2 e3 => ?_, fun h => ?_,
    SGP4x_7Semi.temperatureToTicks_low, fun h => ?_, SGP4x_7Semi.temperatureToTicks_high⟩
  · rw [hfl.1]
    exact floor_close _ _ hclose
  · rw [hfl.1, e0, e1, e2, e3]
    rfl
  · rw [SGP4x_7Semi.temperatureToTicks_eq t, SGP4x_7Semi.temperatureToTicks_eq (-45),
      min_eq_left (by linarith), max_eq_left h.le, min_eq_left (by norm_num), max_eq_left le_rfl]
  · rw [SGP4x_7Semi.temperatureToTicks_eq t, SGP4x_7Semi.temperatureToTicks_eq 130,
      min_eq_right h.le, min_eq_right le_rfl]

/-! ## Default compensation ticks -/

namespace SGP4x_7Semi

theorem humidityToTicks_fifty : humidityToTicks 50 = 32768 := by
  have a1 : f32 (50 * 65535) = 3276750 := by
    rw [f32_exact (50 * 65535) 21 13107000 (by norm_num [abs_of_pos]) (by norm_num [abs_of_pos])
      (by norm_num) (by norm_num)]
    norm_num
  have a2 : f32 (3276750 / 100) = 65535 / 2 := by
    rw [f32_exact (3276750 / 100) 14 16776960 (by norm_num [abs_of_pos])
      (by norm_num [abs_of_pos]) (by norm_num) (by norm_num)]
    norm_num
  have a3 : f32 (65535 / 2 + 1 / 2) = 32768 := by
    rw [f32_exact (65535 / 2 + 1 / 2) 15 8388608 (by norm_num [abs_of_pos])
      (by norm_num [abs_of_pos]) (by norm_num) (by norm_num)]
    norm_num
  rw [humidityToTicks_eq, min_eq_left (by norm_num), max_eq_right (by norm_num), a1, a2, a3]
  exact toUint16_of_floor _ 32768 (by norm_num) (by norm_num) (by norm_num)

theorem temperatureToTicks_twentyfive : temperatureToTicks 25 = 26214 := by
  have b0 : f32 (25 + 45) = 70 := by
    rw [f32_exact (25 + 45) 6 9175040 (by norm_num [abs_of_pos]) (by norm_num [abs_of_pos])
      (by norm_num) (by norm_num)]
    norm_num
  have b1 : f32 (70 * 65535) = 4587450 := by
    rw [f32_exact (70 * 65535) 22 9174900 (by norm_num [abs_of_pos]) (by norm_num [abs_of_pos])
      (by norm_num) (by norm_num)]
    norm_num
  have b2 : f32 (4587450 / 175) = 26214 := by
    rw [f32_exact (4587450 / 175) 14 13421568 (by norm_num [abs_of_pos])
      (by norm_num [abs_of_pos]) (by norm_num) (by norm_num)]
    norm_num
  have b3 : f32 (26214 + 1 / 2) = 52429 / 2 := by
    rw [f32_exact (26214 + 1 / 2) 14 13421824 (by norm_num [abs_of_pos])
      (by norm_num [abs_of_pos]) (by norm_num) (by norm_num)]
    norm_num
  rw [temperatureToTicks_eq, min_eq_left (by norm_num), max_eq_right (by norm_num), b0, b1, b2, b3]
  exact toUint16_of_floor _ 26214 (by norm_num) (by norm_num) (by norm_num)

end SGP4x_7Semi

/-- C11: the literal default compensation constants are the conversions of 50 % relative
humidity and 25 degrees Celsius: `humidityToTicks(50) = default_humidity_ticks = 0x8000`
and `temperatureToTicks(25) = default_temperature_ticks = 0x6666`. -/
theorem default_ticks_match :
    SGP4x_7Semi.humidityToTicks 50 = SGP4x_7Semi.default_humidity_ticks ∧
    SGP4x_7Semi.default_humidity_ticks = 0x8000 ∧
    SGP4x_7Semi.temperatureToTicks 25 = SGP4x_7Semi.default_temperature_ticks ∧
    SGP4x_7Semi.default_temperature_ticks = 0x6666 :=
  ⟨SGP4x_7Semi.humidityToTicks_fifty, rfl, SGP4x_7Semi.temperatureToTicks_twentyfive, rfl⟩

/-! ## The read operations, step by step -/

namespace SGP4x_7Semi

theorem toUint16_lt (x : Float32) : toUint16 x < 65536 := by
  unfold toUint16
  exact Nat.mod_lt _ (by norm_num)

theorem u8_lt (x : Int) : u8 x < 256 := by
  unfold u8
  omega

theorem writeCommand_eq (self : SGP4x_7Semi) (b : Board) (cmd : Nat) (ws : List Nat)
    (hcmd : cmd < 65536) (hws : ∀ w ∈ ws, w < 65536) :
    self.writeCommand b cmd ws ws.length =
      (b.endStatus.headD 0 == 0, b.afterFrame self.address cmd ws) := by
  have hloop := fun b0 => writeCommand_loop_eq ws hws ws.length 0 b0 (by simp)
  simp only [writeCommand, hloop, Nat.mod_eq_of_lt (shiftRight_8_lt hcmd),
    Nat.mod_eq_of_lt (and_255_lt _)]
  simp [Board.endTransmission, Board.write, Board.log, Board.beginTransmission, commandFrame,
    Board.afterFrame, frameCalls]

/-- A read of one word, whatever the board answers. -/
theorem readWords_one (self : SGP4x_7Semi) (b : Board) (v : Nat) :
    self.readWords b [v] 1 =
      if b.granted.headD 0 ≠ 3 then (false, [v], (b.requestFrom self.address 3).2)
      else if generateCRC [b.peek 0, b.peek 1] 2 ≠ b.peek 2 then
        (false, [v], (b.requestFrom self.address 3).2.afterReads 3 (b.incoming.drop 3))
      else
        (true, [256 * b.peek 0 + b.peek 1],
          (b.requestFrom self.address 3).2.afterReads 3 (b.incoming.drop 3)) := by
  have hw : ∀ x y : Int, ((u8 x <<< 8) ||| u8 y) % 65536 = 256 * u8 x + u8 y :=
    fun x y => shiftLeft_or_eq (u8_lt x) (u8_lt y)
  obtain ⟨calls, es, gr, inc⟩ := b
  by_cases hc : gr.headD 0 = 3
  · rcases inc with _ | ⟨x, _ | ⟨y, _ | ⟨z, rest⟩⟩⟩ <;>
      simp [readWords, readWords_loop, Board.read, Board.requestFrom, Board.log, Board.peek,
        Board.afterReads, hc, hw, List.replicate]
  · have hc' : ¬ gr.head?.getD 0 = 3 := by simpa using hc
    simp [readWords, Board.requestFrom, Board.log, hc']

/-- A read of two words, whatever the board answers. -/
theorem readWords_two (self : SGP4x_7Semi) (b : Board) (p q : Nat) :
    self.readWords b [p, q] 2 =
      if b.granted.headD 0 ≠ 6 then (false, [p, q], (b.requestFrom self.address 6).2)
      else if generateCRC [b.peek 0, b.peek 1] 2 ≠ b.peek 2 then
        (false, [p, q], (b.requestFrom self.address 6).2.afterReads 3 (b.incoming.drop 3))
      else if generateCRC [b.peek 3, b.peek 4] 2 ≠ b.peek 5 then
        (false, [256 * b.peek 0 + b.peek 1, q],
          (b.requestFrom self.address 6).2.afterReads 6 (b.incoming.drop 6))
      else
        (true, [256 * b.peek 0 + b.peek 1, 256 * b.peek 3 + b.peek 4],
          (b.requestFrom self.address 6).2.afterReads 6 (b.incoming.drop 6)) := by
  have hw : ∀ x y : Int, ((u8 x <<< 8) ||| u8 y) % 65536 = 256 * u8 x + u8 y :=
    fun x y => shiftLeft_or_eq (u8_lt x) (u8_lt y)
  obtain ⟨calls, es, gr, inc⟩ := b
  by_cases hc : gr.headD 0 = 6
  · rcases inc with _ | ⟨x0, _ | ⟨x1, _ | ⟨x2, _ | ⟨x3, _ | ⟨x4, _ | ⟨x5, rest⟩⟩⟩⟩⟩⟩ <;>
      simp only [readWords, readWords_loop, Board.read, Board.requestFrom, Board.log, Board.peek,
        Board.afterReads, hc, hw, List.replicate, List.headD_cons, List.headD_nil, List.tail_cons,
        List.tail_nil, List.getD_cons_zero, List.getD_cons_succ, List.getD_nil, List.drop_nil,
        List.drop_succ_cons, List.drop_zero, List.set_cons_zero, List.set_cons_succ,
        List.append_assoc, List.cons_append, List.nil_append, ne_eq, not_true_eq_false,
        if_false, Nat.reduceMul, Nat.reduceMod]
  · have hc' : ¬ gr.head?.getD 0 = 6 := by simpa using hc
    simp [readWords, Board.requestFrom, Board.log, hc']

end SGP4x_7Semi

namespace SGP4x_7Semi

theorem afterFrame_delay_granted (b : Board) (a c ms : Nat) (ws : List Nat) :
    ((b.afterFrame a c ws).delay ms).granted = b.granted := rfl

theorem afterFrame_delay_incoming (b : Board) (a c ms : Nat) (ws : List Nat) :
    ((b.afterFrame a c ws).delay ms).incoming = b.incoming := rfl

theorem afterFrame_delay_peek (b : Board) (a c ms i : Nat) (ws : List Nat) :
    ((b.afterFrame a c ws).delay ms).peek i = b.peek i := rfl

theorem afterFrame_delay_requestFrom (b : Board) (a c ms q : Nat) (ws : List Nat) :
    (((b.afterFrame a c ws).delay ms).requestFrom a q).2 =
      (b.afterFrame a c ws).afterRequest ms a q := by
  simp [Board.afterFrame, Board.delay, Board.requestFrom, Board.log, Board.afterRequest]

/-- What `readRawSignalSGP40` does on an initialized SGP40 object, case by case. -/
theorem readRawSignalSGP40_eq (self : SGP4x_7Semi) (b : Board) (voc : Nat)
    (hinit : self._initialized = true) (htype : self.sensor_type = SGP4x.SGP40_SENSOR) :
    self.readRawSignalSGP40 b voc =
      if b.endStatus.headD 0 ≠ 0 then
        ⟨false, voc, self, b.afterFrame self.address 0x260F [0x8000, 0x6666]⟩
      else if b.granted.headD 0 ≠ 3 then
        ⟨false, voc, self,
          (b.afterFrame self.address 0x260F [0x8000, 0x6666]).afterRequest 30 self.address 3⟩
      else if generateCRC [b.peek 0, b.peek 1] 2 ≠ b.peek 2 then
        ⟨false, voc, self,
          ((b.afterFrame self.address 0x260F [0x8000, 0x6666]).afterRequest 30 self.address
            3).afterReads 3 (b.incoming.drop 3)⟩
      else
        ⟨true, 256 * b.peek 0 + b.peek 1, { self with voc_raw := 256 * b.peek 0 + b.peek 1 },
          ((b.afterFrame self.address 0x260F [0x8000, 0x6666]).afterRequest 30 self.address
            3).afterReads 3 (b.incoming.drop 3)⟩ := by
  obtain ⟨i2c, address, ini, ty, vr, nr, er⟩ := self
  dsimp only at hinit htype
  subst hinit htype
  have hw := writeCommand_eq ⟨i2c, address, true, SGP4x.SGP40_SENSOR, vr, nr, er⟩ b 0x260F
    [0x8000, 0x6666] (by norm_num) (by decide)
  simp only [List.length_cons, List.length_nil, Nat.zero_add, Nat.reduceAdd] at hw
  unfold readRawSignalSGP40
  simp only [ CMD_SGP40_MEASURE_RAW, default_humidity_ticks,
    default_temperature_ticks, SGP40_DELAY_MS, hw, readWords_one, afterFrame_delay_granted,
    afterFrame_delay_incoming, afterFrame_delay_peek, afterFrame_delay_requestFrom]
  simp only [List.headD_eq_head?_getD]
  by_cases h1 : b.endStatus.head?.getD 0 = 0
  · by_cases h2 : b.granted.head?.getD 0 = 3
    · by_cases h3 : generateCRC [b.peek 0, b.peek 1] 2 = b.peek 2
      · simp [h1, h2, h3]
      · simp [h1, h2, h3]
    · simp [h1, h2]
  · simp [h1]

theorem humidityToTicks_lt (rh : Float32) : humidityToTicks rh < 65536 := by
  unfold humidityToTicks
  exact toUint16_lt _

theorem temperatureToTicks_lt (t : Float32) : temperatureToTicks t < 65536 := by
  unfold temperatureToTicks
  exact toUint16_lt _

theorem ticks_lt (rh t : Float32) :
    ∀ w ∈ [humidityToTicks rh, temperatureToTicks t], w < 65536 := by
  intro w hw
  simp only [List.mem_cons, List.mem_singleton, List.not_mem_nil, or_false] at hw
  rcases hw with rfl | rfl
  · exact humidityToTicks_lt rh
  · exact temperatureToTicks_lt t

/-- What `readRawSignalSGP41Comp` does on an initialized SGP41 object, case by case. -/
theorem readRawSignalSGP41Comp_eq (self : SGP4x_7Semi) (b : Board) (rh t : Float32)
    (voc nox : Nat) (hinit : self._initialized = true)
    (htype : self.sensor_type = SGP4x.SGP41_SENSOR) :
    self.readRawSignalSGP41Comp b rh t voc nox =
      if b.endStatus.headD 0 ≠ 0 then
        ⟨false, voc, nox, self,
          b.afterFrame self.address 0x2619 [humidityToTicks rh, temperatureToTicks t]⟩
      else if b.granted.headD 0 ≠ 6 then
        ⟨false, voc, nox, self,
          (b.afterFrame self.address 0x2619 [humidityToTicks rh, temperatureToTicks t]).afterRequest
            50 self.address 6⟩
      else if generateCRC [b.peek 0, b.peek 1] 2 ≠ b.peek 2 then
        ⟨false, voc, nox, self,
          ((b.afterFrame self.address 0x2619
            [humidityToTicks rh, temperatureToTicks t]).afterRequest 50 self.address 6).afterReads 3
            (b.incoming.drop 3)⟩
      else if generateCRC [b.peek 3, b.peek 4] 2 ≠ b.peek 5 then
        ⟨false, voc, nox, self,
          ((b.afterFrame self.address 0x2619
            [humidityToTicks rh, temperatureToTicks t]).afterRequest 50 self.address 6).afterReads 6
            (b.incoming.drop 6)⟩
      else
        ⟨true, 256 * b.peek 0 + b.peek 1, 256 * b.peek 3 + b.peek 4,
          { self with voc_raw := 256 * b.peek 0 + b.peek 1, nox_raw := 256 * b.peek 3 + b.peek 4 },
          ((b.afterFrame self.address 0x2619
            [humidityToTicks rh, temperatureToTicks t]).afterRequest 50 self.address 6).afterReads 6
            (b.incoming.drop 6)⟩ := by
  obtain ⟨i2c, address, ini, ty, vr, nr, er⟩ := self
  dsimp only at hinit htype
  subst hinit htype
  have hw := writeCommand_eq ⟨i2c, address, true, SGP4x.SGP41_SENSOR, vr, nr, er⟩ b 0x2619
    [humidityToTicks rh, temperatureToTicks t] (by norm_num) (ticks_lt rh t)
  simp only [List.length_cons, List.length_nil, Nat.zero_add, Nat.reduceAdd] at hw
  unfold readRawSignalSGP41Comp
  simp only [CMD_SGP41_MEASURE_RAW, SGP41_DELAY_MS, hw, readWords_two, afterFrame_delay_granted,
    afterFrame_delay_incoming, afterFrame_delay_peek, afterFrame_delay_requestFrom]
  simp only [List.headD_eq_head?_getD]
  by_cases h1 : b.endStatus.head?.getD 0 = 0
  · by_cases h2 : b.granted.head?.getD 0 = 6
    · by_cases h3 : generateCRC [b.peek 0, b.peek 1] 2 = b.peek 2
      · by_cases h4 : generateCRC [b.peek 3, b.peek 4] 2 = b.peek 5
        · simp [h1, h2, h3, h4]
        · simp [h1, h2, h3, h4]
      · simp [h1, h2, h3]
    · simp [h1, h2]
  · simp [h1]

/-- What `executeConditioning` does on an initialized SGP41 object, case by case. -/
theorem executeConditioning_eq (self : SGP4x_7Semi) (b : Board) (rh t : Float32)
    (srawVoc : Nat) (hinit : self._initialized = true)
    (htype : self.sensor_type = SGP4x.SGP41_SENSOR) :
    self.executeConditioning b rh t srawVoc =
      if b.endStatus.headD 0 ≠ 0 then
        ⟨false, srawVoc, self,
          b.afterFrame self.address 0x2612 [humidityToTicks rh, temperatureToTicks t]⟩
      else if b.granted.headD 0 ≠ 3 then
        ⟨false, srawVoc, self,
          (b.afterFrame self.address 0x2612 [humidityToTicks rh, temperatureToTicks t]).afterRequest
            50 self.address 3⟩
      else if generateCRC [b.peek 0, b.peek 1] 2 ≠ b.peek 2 then
        ⟨false, srawVoc, self,
          ((b.afterFrame self.address 0x2612
            [humidityToTicks rh, temperatureToTicks t]).afterRequest 50 self.address 3).afterReads 3
            (b.incoming.drop 3)⟩
      else
        ⟨true, 256 * b.peek 0 + b.peek 1, self,
          ((b.afterFrame self.address 0x2612
            [humidityToTicks rh, temperatureToTicks t]).afterRequest 50 self.address 3).afterReads 3
            (b.incoming.drop 3)⟩ := by
  obtain ⟨i2c, address, ini, ty, vr, nr, er⟩ := self
  dsimp only at hinit htype
  subst hinit htype
  have hw := writeCommand_eq ⟨i2c, address, true, SGP4x.SGP41_SENSOR, vr, nr, er⟩ b 0x2612
    [humidityToTicks rh, temperatureToTicks t] (by norm_num) (ticks_lt rh t)
  simp only [List.length_cons, List.length_nil, Nat.zero_add, Nat.reduceAdd] at hw
  unfold executeConditioning
  simp only [CMD_SGP41_CONDITIONING, SGP41_DELAY_MS, hw, readWords_one, afterFrame_delay_granted,
    afterFrame_delay_incoming, afterFrame_delay_peek, afterFrame_delay_requestFrom]
  simp only [List.headD_eq_head?_getD]
  by_cases h1 : b.endStatus.head?.getD 0 = 0
  · by_cases h2 : b.granted.head?.getD 0 = 3
    · by_cases h3 : generateCRC [b.peek 0, b.peek 1] 2 = b.peek 2
      · simp [h1, h2, h3]
      · simp [h1, h2, h3]
    · simp [h1, h2]
  · simp [h1]

end SGP4x_7Semi

namespace SGP4x_7Semi

theorem default_frame (address cmd : Nat) (hcmd : cmd = 0x260F ∨ cmd = 0x2619) :
    frameCalls address cmd [0x8000, 0x6666] =
      [Call.beginTransmission address, Call.write 0x26, Call.write (cmd &&& 0xFF),
        Call.write 0x80, Call.write 0x00, Call.write 0xA2, Call.write 0x66, Call.write 0x66,
        Call.write 0x93, Call.endTransmission] := by
  have h1 : generateCRC [0x80, 0x00] 2 = 0xA2 := by decide
  have h2 : generateCRC [0x66, 0x66] 2 = 0x93 := by decide
  have e1 : (0x8000 : Nat) >>> 8 = 0x80 := by decide
  have e2 : (0x8000 : Nat) &&& 0xFF = 0x00 := by decide
  have e3 : (0x6666 : Nat) >>> 8 = 0x66 := by decide
  have e4 : (0x6666 : Nat) &&& 0xFF = 0x66 := by decide
  have e5 : cmd >>> 8 = 0x26 := by rcases hcmd with rfl | rfl <;> decide
  simp only [frameCalls, commandFrame, List.flatMap_cons, List.flatMap_nil, e1, e2, e3, e4, e5,
    h1, h2, List.map_cons, List.map_nil, List.append_nil, List.cons_append, List.nil_append,
    List.map_append]

end SGP4x_7Semi

/-- C12: on an initialized SGP40 object `readRawSignalSGP40` writes exactly the frame
0x26 0x0F 0x80 0x00 0xA2 0x66 0x66 0x93; with a non-zero transmission status it stops
there and returns false; with status 0 it delays 30 ms and requests exactly 3 bytes, and if
3 bytes are reported and they form a triplet with a matching checksum it returns true with
the output argument and the cached raw VOC equal to `256 * msb + lsb`, the cached NOx
unchanged. -/
theorem readRawSignalSGP40_round (self : SGP4x_7Semi) (b : Board) (voc : Nat)
    (hinit : self._initialized = true)
    (htype : self.sensor_type = SGP4x_7Semi.SGP4x.SGP40_SENSOR) :
    frameCalls self.address 0x260F [0x8000, 0x6666] =
      [Call.beginTransmission self.address, Call.write 0x26, Call.write 0x0F, Call.write 0x80,
        Call.write 0x00, Call.write 0xA2, Call.write 0x66, Call.write 0x66, Call.write 0x93,
        Call.endTransmission] ∧
    (b.endStatus.headD 0 ≠ 0 →
      self.readRawSignalSGP40 b voc =
        ⟨false, voc, self, b.afterFrame self.address 0x260F [0x8000, 0x6666]⟩) ∧
    (b.endStatus.headD 0 = 0 →
      ∃ k, (self.readRawSignalSGP40 b voc).board.calls =
        b.calls ++ frameCalls self.address 0x260F [0x8000, 0x6666] ++
          [Call.delay 30, Call.requestFrom self.address 3] ++ List.replicate k Call.read) ∧
    (b.endStatus.headD 0 = 0 → b.granted.headD 0 = 3 →
      SGP4x_7Semi.generateCRC [b.peek 0, b.peek 1] 2 = b.peek 2 →
      self.readRawSignalSGP40 b voc =
        ⟨true, 256 * b.peek 0 + b.peek 1, { self with voc_raw := 256 * b.peek 0 + b.peek 1 },
          ((b.afterFrame self.address 0x260F [0x8000, 0x6666]).afterRequest 30 self.address
            3).afterReads 3 (b.incoming.drop 3)⟩ ∧
      (self.readRawSignalSGP40 b voc).self.nox_raw = self.nox_raw) := by
  have heq := SGP4x_7Semi.readRawSignalSGP40_eq self b voc hinit htype
  refine ⟨SGP4x_7Semi.default_frame _ _ (Or.inl rfl), fun h1 => ?_, fun h1 => ?_,
    fun h1 h2 h3 => ?_⟩
  · rw [heq, if_pos h1]
  · rw [heq, if_neg (not_not.2 h1)]
    by_cases h2 : b.granted.headD 0 = 3
    · refine ⟨3, ?_⟩
      rw [if_neg (not_not.2 h2)]
      split_ifs <;> simp [Board.afterReads, Board.afterRequest, Board.afterFrame]
    · refine ⟨0, ?_⟩
      rw [if_pos h2]
      simp [Board.afterRequest, Board.afterFrame]
  · rw [heq, if_neg (not_not.2 h1), if_neg (not_not.2 h2), if_neg (not_not.2 h3)]
    exact ⟨rfl, rfl⟩

theorem readRawSignalSGP40_round_witness :
    (SGP4x_7Semi.readRawSignalSGP40 ⟨some 0, 0x59, true, SGP4x_7Semi.SGP4x.SGP40_SENSOR, 0, 7, 0⟩
        ⟨[], [0], [3], [0xBE, 0xEF, 0x92]⟩ 0).ok = true ∧
    (SGP4x_7Semi.readRawSignalSGP40 ⟨some 0, 0x59, true, SGP4x_7Semi.SGP4x.SGP40_SENSOR, 0, 7, 0⟩
        ⟨[], [0], [3], [0xBE, 0xEF, 0x92]⟩ 0).out = 0xBEEF ∧
    (SGP4x_7Semi.readRawSignalSGP40 ⟨some 0, 0x59, true, SGP4x_7Semi.SGP4x.SGP40_SENSOR, 0, 7, 0⟩
        ⟨[], [0], [3], [0xBE, 0xEF, 0x92]⟩ 0).self.voc_raw = 0xBEEF ∧
    (SGP4x_7Semi.readRawSignalSGP40 ⟨some 0, 0x59, true, SGP4x_7Semi.SGP4x.SGP40_SENSOR, 0, 7, 0⟩
        ⟨[], [0], [3], [0xBE, 0xEF, 0x92]⟩ 0).self.nox_raw = 7 := by
  have h := ((readRawSignalSGP40_round
    ⟨some 0, 0x59, true, SGP4x_7Semi.SGP4x.SGP40_SENSOR, 0, 7, 0⟩
    ⟨[], [0], [3], [0xBE, 0xEF, 0x92]⟩ 0 rfl rfl).2.2.2 (by decide) (by decide) (by decide)).1
  rw [h]
  decide

/-- C13: on an initialized SGP41 object `readRawSignalSGP41Comp(h, t)` writes exactly the
frame 0x26 0x19 followed by the checksummed big-endian words `humidityToTicks(h)` and
`temperatureToTicks(t)`; with a non-zero transmission status it stops there and returns
false; with status 0 it delays 50 ms and requests exactly 6 bytes, and if 6 bytes are
reported and both triplets have matching checksums it returns true with `voc` the first
decoded word and `nox` the second (both cached as well); `readRawSignalSGP41` is
`readRawSignalSGP41Comp(50, 25)` and sends 0x26 0x19 0x80 0x00 0xA2 0x66 0x66 0x93. -/
theorem readRawSignalSGP41Comp_round (self : SGP4x_7Semi) (b : Board) (rh t : Float32)
    (voc nox : Nat) (hinit : self._initialized = true)
    (htype : self.sensor_type = SGP4x_7Semi.SGP4x.SGP41_SENSOR) :
    commandFrame 0x2619 [SGP4x_7Semi.humidityToTicks rh, SGP4x_7Semi.temperatureToTicks t] =
      [0x26, 0x19,
        SGP4x_7Semi.humidityToTicks rh >>> 8, SGP4x_7Semi.humidityToTicks rh &&& 0xFF,
        SGP4x_7Semi.generateCRC
          [SGP4x_7Semi.humidityToTicks rh >>> 8, SGP4x_7Semi.humidityToTicks rh &&& 0xFF] 2,
        SGP4x_7Semi.temperatureToTicks t >>> 8, SGP4x_7Semi.temperatureToTicks t &&& 0xFF,
        SGP4x_7Semi.generateCRC
          [SGP4x_7Semi.temperatureToTicks t >>> 8, SGP4x_7Semi.temperatureToTicks t &&& 0xFF] 2] ∧
    (b.endStatus.headD 0 ≠ 0 →
      self.readRawSignalSGP41Comp b rh t voc nox =
        ⟨false, voc, nox, self, b.afterFrame self.address 0x2619
          [SGP4x_7Semi.humidityToTicks rh, SGP4x_7Semi.temperatureToTicks t]⟩) ∧
    (b.endStatus.headD 0 = 0 →
      ∃ k, (self.readRawSignalSGP41Comp b rh t voc nox).board.calls =
        b.calls ++ frameCalls self.address 0x2619
            [SGP4x_7Semi.humidityToTicks rh, SGP4x_7Semi.temperatureToTicks t] ++
          [Call.delay 50, Call.requestFrom self.address 6] ++ List.replicate k Call.read) ∧
    (b.endStatus.headD 0 = 0 → b.granted.headD 0 = 6 →
      SGP4x_7Semi.generateCRC [b.peek 0, b.peek 1] 2 = b.peek 2 →
      SGP4x_7Semi.generateCRC [b.peek 3, b.peek 4] 2 = b.peek 5 →
      self.readRawSignalSGP41Comp b rh t voc nox =
        ⟨true, 256 * b.peek 0 + b.peek 1, 256 * b.peek 3 + b.peek 4,
          { self with voc_raw := 256 * b.peek 0 + b.peek 1, nox_raw := 256 * b.peek 3 + b.peek 4 },
          ((b.afterFrame self.address 0x2619
            [SGP4x_7Semi.humidityToTicks rh, SGP4x_7Semi.temperatureToTicks t]).afterRequest 50
            self.address 6).afterReads 6 (b.incoming.drop 6)⟩) ∧
    self.readRawSignalSGP41 b voc nox = self.readRawSignalSGP41Comp b 50 25 voc nox ∧
    frameCalls self.address 0x2619
        [SGP4x_7Semi.humidityToTicks 50, SGP4x_7Semi.temperatureToTicks 25] =
      [Call.beginTransmission self.address, Call.write 0x26, Call.write 0x19, Call.write 0x80,
        Call.write 0x00, Call.write 0xA2, Call.write 0x66, Call.write 0x66, Call.write 0x93,
        Call.endTransmission] := by
  have heq := SGP4x_7Semi.readRawSignalSGP41Comp_eq self b rh t voc nox hinit htype
  refine ⟨?_, fun h1 => ?_, fun h1 => ?_, fun h1 h2 h3 h4 => ?_, rfl, ?_⟩
  · have e : (0x2619 : Nat) >>> 8 = 0x26 ∧ (0x2619 : Nat) &&& 0xFF = 0x19 := by decide
    simp only [commandFrame, e.1, e.2, List.flatMap_cons, List.flatMap_nil, List.append_nil,
      List.cons_append, List.nil_append]
  · rw [heq, if_pos h1]
  · rw [heq, if_neg (not_not.2 h1)]
    by_cases h2 : b.granted.headD 0 = 6
    · rw [if_neg (not_not.2 h2)]
      by_cases h3 : SGP4x_7Semi.generateCRC [b.peek 0, b.peek 1] 2 = b.peek 2
      · refine ⟨6, ?_⟩
        rw [if_neg (not_not.2 h3)]
        split_ifs <;> simp [Board.afterReads, Board.afterRequest, Board.afterFrame]
      · refine ⟨3, ?_⟩
        rw [if_pos h3]
        simp [Board.afterReads, Board.afterRequest, Board.afterFrame]
    · refine ⟨0, ?_⟩
      rw [if_pos h2]
      simp [Board.afterRequest, Board.afterFrame]
  · rw [heq, if_neg (not_not.2 h1), if_neg (not_not.2 h2), if_neg (not_not.2 h3),
      if_neg (not_not.2 h4)]
  · rw [SGP4x_7Semi.humidityToTicks_fifty, SGP4x_7Semi.temperatureToTicks_twentyfive]
    exact SGP4x_7Semi.default_frame _ _ (Or.inr rfl)

theorem readRawSignalSGP41Comp_round_witness :
    SGP4x_7Semi.readRawSignalSGP41Comp
        ⟨some 0, 0x59, true, SGP4x_7Semi.SGP4x.SGP41_SENSOR, 0, 0, 0⟩
        ⟨[], [0], [6], [0xBE, 0xEF, 0x92, 0x12, 0x34, 0x37]⟩ 50 25 1 2 =
      ⟨true, 0xBEEF, 0x1234,
        ⟨some 0, 0x59, true, SGP4x_7Semi.SGP4x.SGP41_SENSOR, 0xBEEF, 0x1234, 0⟩,
        (((⟨[], [0], [6], [0xBE, 0xEF, 0x92, 0x12, 0x34, 0x37]⟩ : Board).afterFrame 0x59 0x2619
          [SGP4x_7Semi.humidityToTicks 50, SGP4x_7Semi.temperatureToTicks 25]).afterRequest 50
          0x59 6).afterReads 6 []⟩ :=
  (readRawSignalSGP41Comp_round ⟨some 0, 0x59, true, SGP4x_7Semi.SGP4x.SGP41_SENSOR, 0, 0, 0⟩
    ⟨[], [0], [6], [0xBE, 0xEF, 0x92, 0x12, 0x34, 0x37]⟩ 50 25 1 2 rfl rfl).2.2.2.1
    (by decide) (by decide) (by decide) (by decide)

/-- C15: on an initialized SGP41 object one call of `executeConditioning(h, t)` is one
request/response round: one write transaction with 0x26 0x12 and the checksummed words
`humidityToTicks(h)` and `temperatureToTicks(t)`; with a non-zero transmission status it
returns false with no delay and no read request; with status 0 there follow exactly one
delay of 50 ms and exactly one request of 3 bytes; it returns true exactly when the status
is 0, 3 bytes are reported and the checksum matches, and then `srawVoc` is the decoded
word. -/
theorem executeConditioning_round (self : SGP4x_7Semi) (b : Board) (rh t : Float32)
    (srawVoc : Nat) (hinit : self._initialized = true)
    (htype : self.sensor_type = SGP4x_7Semi.SGP4x.SGP41_SENSOR) :
    commandFrame 0x2612 [SGP4x_7Semi.humidityToTicks rh, SGP4x_7Semi.temperatureToTicks t] =
      [0x26, 0x12,
        SGP4x_7Semi.humidityToTicks rh >>> 8, SGP4x_7Semi.humidityToTicks rh &&& 0xFF,
        SGP4x_7Semi.generateCRC
          [SGP4x_7Semi.humidityToTicks rh >>> 8, SGP4x_7Semi.humidityToTicks rh &&& 0xFF] 2,
        SGP4x_7Semi.temperatureToTicks t >>> 8, SGP4x_7Semi.temperatureToTicks t &&& 0xFF,
        SGP4x_7Semi.generateCRC
          [SGP4x_7Semi.temperatureToTicks t >>> 8, SGP4x_7Semi.temperatureToTicks t &&& 0xFF] 2] ∧
    (b.endStatus.headD 0 ≠ 0 →
      self.executeConditioning b rh t srawVoc =
        ⟨false, srawVoc, self, b.afterFrame self.address 0x2612
          [SGP4x_7Semi.humidityToTicks rh, SGP4x_7Semi.temperatureToTicks t]⟩) ∧
    (b.endStatus.headD 0 = 0 →
      ∃ k, (self.executeConditioning b rh t srawVoc).board.calls =
        b.calls ++ frameCalls self.address 0x2612
            [SGP4x_7Semi.humidityToTicks rh, SGP4x_7Semi.temperatureToTicks t] ++
          [Call.delay 50, Call.requestFrom self.address 3] ++ List.replicate k Call.read) ∧
    ((self.executeConditioning b rh t srawVoc).ok = true ↔
      b.endStatus.headD 0 = 0 ∧ b.granted.headD 0 = 3 ∧
        SGP4x_7Semi.generateCRC [b.peek 0, b.peek 1] 2 = b.peek 2) ∧
    ((self.executeConditioning b rh t srawVoc).ok = true →
      (self.executeConditioning b rh t srawVoc).out = 256 * b.peek 0 + b.peek 1) := by
  have heq := SGP4x_7Semi.executeConditioning_eq self b rh t srawVoc hinit htype
  refine ⟨?_, fun h1 => ?_, fun h1 => ?_, ?_, ?_⟩
  · have e : (0x2612 : Nat) >>> 8 = 0x26 ∧ (0x2612 : Nat) &&& 0xFF = 0x12 := by decide
    simp only [commandFrame, e.1, e.2, List.flatMap_cons, List.flatMap_nil, List.append_nil,
      List.cons_append, List.nil_append]
  · rw [heq, if_pos h1]
  · rw [heq, if_neg (not_not.2 h1)]
    by_cases h2 : b.granted.headD 0 = 3
    · refine ⟨3, ?_⟩
      rw [if_neg (not_not.2 h2)]
      split_ifs <;> simp [Board.afterReads, Board.afterRequest, Board.afterFrame]
    · refine ⟨0, ?_⟩
      rw [if_pos h2]
      simp [Board.afterRequest, Board.afterFrame]
  · rw [heq]
    split_ifs with h1 h2 h3
    · simp at h1 ⊢; exact fun h => absurd h h1
    · simp at h1 h2 ⊢; exact fun _ h => absurd h h2
    · simp at h1 h2 h3 ⊢; exact fun _ _ h => absurd h h3
    · simp at h1 h2 h3 ⊢; exact ⟨h1, h2, h3⟩
  · rw [heq]
    split_ifs with h1 h2 h3 <;> simp

theorem executeConditioning_round_witness :
    (SGP4x_7Semi.executeConditioning ⟨some 0, 0x59, true, SGP4x_7Semi.SGP4x.SGP41_SENSOR, 0, 0, 0⟩
        ⟨[], [2], [3], [0xBE, 0xEF, 0x92]⟩ 50 25 5) =
      ⟨false, 5, ⟨some 0, 0x59, true, SGP4x_7Semi.SGP4x.SGP41_SENSOR, 0, 0, 0⟩,
        (⟨[], [2], [3], [0xBE, 0xEF, 0x92]⟩ : Board).afterFrame 0x59 0x2612
          [SGP4x_7Semi.humidityToTicks 50, SGP4x_7Semi.temperatureToTicks 25]⟩ :=
  (executeConditioning_round ⟨some 0, 0x59, true, SGP4x_7Semi.SGP4x.SGP41_SENSOR, 0, 0, 0⟩
    ⟨[], [2], [3], [0xBE, 0xEF, 0x92]⟩ 50 25 5 rfl rfl).2.1 (by decide)

/-! ## Cached readings -/

namespace SGP4x_7Semi

/-- A successful `readRawSignalSGP40` returns and caches the decoded word. -/
theorem readRawSignalSGP40_ok (self : SGP4x_7Semi) (b : Board) (voc : Nat)
    (h : (self.readRawSignalSGP40 b voc).ok = true) :
    (self.readRawSignalSGP40 b voc).out = 256 * b.peek 0 + b.peek 1 ∧
    (self.readRawSignalSGP40 b voc).self.voc_raw = 256 * b.peek 0 + b.peek 1 ∧
    (self.readRawSignalSGP40 b voc).self.nox_raw = self.nox_raw := by
  obtain ⟨i2c, address, ini, ty, vr, nr, er⟩ := self
  cases ini <;> cases ty <;>
    first | (simp [readRawSignalSGP40] at h; done) | skip
  rw [readRawSignalSGP40_eq _ b voc rfl rfl] at h ⊢
  split_ifs at h ⊢
  exact ⟨rfl, rfl, rfl⟩

/-- A successful `readRawSignalSGP41Comp` returns and caches the two decoded words. -/
theorem readRawSignalSGP41Comp_ok (self : SGP4x_7Semi) (b : Board) (rh t : Float32)
    (voc nox : Nat) (h : (self.readRawSignalSGP41Comp b rh t voc nox).ok = true) :
    (self.readRawSignalSGP41Comp b rh t voc nox).voc = 256 * b.peek 0 + b.peek 1 ∧
    (self.readRawSignalSGP41Comp b rh t voc nox).nox = 256 * b.peek 3 + b.peek 4 ∧
    (self.readRawSignalSGP41Comp b rh t voc nox).self.voc_raw = 256 * b.peek 0 + b.peek 1 ∧
    (self.readRawSignalSGP41Comp b rh t voc nox).self.nox_raw = 256 * b.peek 3 + b.peek 4 := by
  obtain ⟨i2c, address, ini, ty, vr, nr, er⟩ := self
  cases ini <;> cases ty <;>
    first | (simp [readRawSignalSGP41Comp] at h; done) | skip
  rw [readRawSignalSGP41Comp_eq _ b rh t voc nox rfl rfl] at h ⊢
  split_ifs at h ⊢
  exact ⟨rfl, rfl, rfl, rfl⟩

end SGP4x_7Semi

/-- C14: a successful `executeConditioning` decodes a raw VOC word and hands it to the
caller but leaves the cached raw VOC at its old value (here 0 after a read of 0xBEEF);
every other successful read caches what it decodes: `readRawSignalSGP40`,
`readRawSignalSGP41`, `readRawSignalSGP41Comp`, `readVOC` and `readVOCComp` leave the cached
raw VOC equal to the decoded and returned VOC word, and the reads of an SGP41 leave the
cached raw NOx equal to the decoded NOx word. -/
theorem executeConditioning_skips_cache :
    ((SGP4x_7Semi.executeConditioning ⟨some 0, 0x59, true, SGP4x_7Semi.SGP4x.SGP41_SENSOR, 0, 0, 0⟩
        ⟨[], [0], [3], [0xBE, 0xEF, 0x92]⟩ 50 25 0).ok = true ∧
      (SGP4x_7Semi.executeConditioning ⟨some 0, 0x59, true, SGP4x_7Semi.SGP4x.SGP41_SENSOR, 0, 0, 0⟩
        ⟨[], [0], [3], [0xBE, 0xEF, 0x92]⟩ 50 25 0).out = 0xBEEF ∧
      (SGP4x_7Semi.executeConditioning ⟨some 0, 0x59, true, SGP4x_7Semi.SGP4x.SGP41_SENSOR, 0, 0, 0⟩
        ⟨[], [0], [3], [0xBE, 0xEF, 0x92]⟩ 50 25 0).self.voc_raw = 0) ∧
    (∀ (self : SGP4x_7Semi) (b : Board) (voc : Nat),
      (self.readRawSignalSGP40 b voc).ok = true →
        (self.readRawSignalSGP40 b voc).out = 256 * b.peek 0 + b.peek 1 ∧
        (self.readRawSignalSGP40 b voc).self.voc_raw = (self.readRawSignalSGP40 b voc).out) ∧
    (∀ (self : SGP4x_7Semi) (b : Board) (rh t : Float32) (voc nox : Nat),
      (self.readRawSignalSGP41Comp b rh t voc nox).ok = true →
        (self.readRawSignalSGP41Comp b rh t voc nox).voc = 256 * b.peek 0 + b.peek 1 ∧
        (self.readRawSignalSGP41Comp b rh t voc nox).nox = 256 * b.peek 3 + b.peek 4 ∧
        (self.readRawSignalSGP41Comp b rh t voc nox).self.voc_raw =
          (self.readRawSignalSGP41Comp b rh t voc nox).voc ∧
        (self.readRawSignalSGP41Comp b rh t voc nox).self.nox_raw =
          (self.readRawSignalSGP41Comp b rh t voc nox).nox) ∧
    (∀ (self : SGP4x_7Semi) (b : Board) (voc nox : Nat),
      (self.readRawSignalSGP41 b voc nox).ok = true →
        (self.readRawSignalSGP41 b voc nox).voc = 256 * b.peek 0 + b.peek 1 ∧
        (self.readRawSignalSGP41 b voc nox).nox = 256 * b.peek 3 + b.peek 4 ∧
        (self.readRawSignalSGP41 b voc nox).self.voc_raw = (self.readRawSignalSGP41 b voc nox).voc ∧
        (self.readRawSignalSGP41 b voc nox).self.nox_raw =
          (self.readRawSignalSGP41 b voc nox).nox) ∧
    (∀ (self : SGP4x_7Semi) (b : Board) (voc : Nat),
      (self.readVOC b voc).ok = true →
        (self.readVOC b voc).out = 256 * b.peek 0 + b.peek 1 ∧
        (self.readVOC b voc).self.voc_raw = (self.readVOC b voc).out ∧
        (self.sensor_type = SGP4x_7Semi.SGP4x.SGP41_SENSOR →
          (self.readVOC b voc).self.nox_raw = 256 * b.peek 3 + b.peek 4)) ∧
    (∀ (self : SGP4x_7Semi) (b : Board) (rh t : Float32) (voc : Nat),
      (self.readVOCComp b rh t voc).ok = true →
        (self.readVOCComp b rh t voc).out = 256 * b.peek 0 + b.peek 1 ∧
        (self.readVOCComp b rh t voc).self.voc_raw = (self.readVOCComp b rh t voc).out ∧
        (self.sensor_type = SGP4x_7Semi.SGP4x.SGP41_SENSOR →
          (self.readVOCComp b rh t voc).self.nox_raw = 256 * b.peek 3 + b.peek 4)) := by
  refine ⟨?_, fun self b voc h => ?_, fun self b rh t voc nox h => ?_,
    fun self b voc nox h => ?_, fun self b voc h => ?_, fun self b rh t voc h => ?_⟩
  · rw [SGP4x_7Semi.executeConditioning_eq _ _ _ _ _ rfl rfl, if_neg (by decide),
      if_neg (by decide), if_neg (by decide)]
    decide
  · have := SGP4x_7Semi.readRawSignalSGP40_ok self b voc h
    exact ⟨this.1, this.2.1.trans this.1.symm⟩
  · have := SGP4x_7Semi.readRawSignalSGP41Comp_ok self b rh t voc nox h
    exact ⟨this.1, this.2.1, this.2.2.1.trans this.1.symm, this.2.2.2.trans this.2.1.symm⟩
  · have := SGP4x_7Semi.readRawSignalSGP41Comp_ok self b 50 25 voc nox h
    exact ⟨this.1, this.2.1, this.2.2.1.trans this.1.symm, this.2.2.2.trans this.2.1.symm⟩
  · unfold SGP4x_7Semi.readVOC at h ⊢
    split at h
    · rename_i hs
      have := SGP4x_7Semi.readRawSignalSGP40_ok self b voc h
      exact ⟨this.1, this.2.1.trans this.1.symm, fun h41 => by rw [hs] at h41; cases h41⟩
    · have := SGP4x_7Semi.readRawSignalSGP41Comp_ok self b 50 25 voc 0 h
      exact ⟨this.1, this.2.2.1.trans this.1.symm, fun _ => this.2.2.2⟩
  · unfold SGP4x_7Semi.readVOCComp at h ⊢
    split at h
    · rename_i hs
      have := SGP4x_7Semi.readRawSignalSGP40_ok self b voc h
      exact ⟨this.1, this.2.1.trans this.1.symm, fun h41 => by rw [hs] at h41; cases h41⟩
    · have := SGP4x_7Semi.readRawSignalSGP41Comp_ok self b rh t voc 0 h
      exact ⟨this.1, this.2.2.1.trans this.1.symm, fun _ => this.2.2.2⟩

/-! ## Index calculations -/

namespace SGP4x_7Semi

theorem calculateVOCIndex_eq (raw : Nat) : calculateVOCIndex raw = f32 (vocIndexExact raw) := by
  unfold calculateVOCIndex vocIndexExact
  split_ifs with h
  · have hc : ((raw - 20000 : ℕ) : ℚ) = (raw : ℚ) - 20000 := by
      rw [Nat.cast_sub (by omega)]
      norm_num
    have hpos : (0 : ℚ) ≤ (raw : ℚ) - 20000 := by
      have : (20000 : ℚ) ≤ raw := by exact_mod_cast (by omega : 20000 ≤ raw)
      linarith
    rw [hc, max_eq_right hpos]
  · have hle : (raw : ℚ) - 20000 ≤ 0 := by
      have : (raw : ℚ) ≤ 20000 := by exact_mod_cast (by omega : raw ≤ 20000)
      linarith
    rw [max_eq_left hle, zero_div, f32_zero]

theorem calculateNOxIndex_eq (raw : Nat) : calculateNOxIndex raw = f32 (noxIndexExact raw) := by
  unfold calculateNOxIndex noxIndexExact
  split_ifs with h
  · have hc : ((raw - 10000 : ℕ) : ℚ) = (raw : ℚ) - 10000 := by
      rw [Nat.cast_sub (by omega)]
      norm_num
    have hpos : (0 : ℚ) ≤ (raw : ℚ) - 10000 := by
      have : (10000 : ℚ) ≤ raw := by exact_mod_cast (by omega : 10000 ≤ raw)
      linarith
    rw [hc, max_eq_right hpos]
  · have hle : (raw : ℚ) - 10000 ≤ 0 := by
      have : (raw : ℚ) ≤ 10000 := by exact_mod_cast (by omega : raw ≤ 10000)
      linarith
    rw [max_eq_left hle, zero_div, f32_zero]

theorem indexExact_bounds (raw : Nat) (h : raw < 65536) :
    |vocIndexExact raw| < (2 : ℚ) ^ (9 : ℤ) ∧ |noxIndexExact raw| < (2 : ℚ) ^ (9 : ℤ) := by
  have hr : (raw : ℚ) < 65536 := by exact_mod_cast h
  have hr0 : (0 : ℚ) ≤ raw := Nat.cast_nonneg raw
  unfold vocIndexExact noxIndexExact
  have h1 : (0 : ℚ) ≤ max 0 ((raw : ℚ) - 20000) := le_max_left _ _
  have h2 : max 0 ((raw : ℚ) - 20000) < 45536 := max_lt (by norm_num) (by linarith)
  have h3 : (0 : ℚ) ≤ max 0 ((raw : ℚ) - 10000) := le_max_left _ _
  have h4 : max 0 ((raw : ℚ) - 10000) < 55536 := max_lt (by norm_num) (by linarith)
  constructor
  · rw [abs_of_nonneg (by positivity)]
    norm_num
    linarith
  · rw [abs_of_nonneg (by positivity)]
    norm_num
    linarith

end SGP4x_7Semi

/-- C16 fails as stated: for raw = 20001 the exact quotient 1/100 is not a binary32 number;
the float division yields 5368709 / 2^29, a little below it. -/
theorem calculateVOCIndex_not_exact :
    SGP4x_7Semi.calculateVOCIndex 20001 = 5368709 / 536870912 ∧
    vocIndexExact 20001 = 1 / 100 ∧
    SGP4x_7Semi.calculateVOCIndex 20001 ≠ vocIndexExact 20001 := by
  have h1 : SGP4x_7Semi.calculateVOCIndex 20001 = 5368709 / 536870912 := by
    have e : vocIndexExact 20001 = 1 / 100 := by
      unfold vocIndexExact
      norm_num
    rw [SGP4x_7Semi.calculateVOCIndex_eq, e,
      f32_of_round (1 / 100) (-7) 10737418 (by norm_num [abs_of_pos]) (by norm_num [abs_of_pos])
        (by norm_num) (roundHalfEven_of_lt _ 10737418 (by norm_num) (by norm_num))]
    norm_num
  have h2 : vocIndexExact 20001 = 1 / 100 := by
    unfold vocIndexExact
    norm_num
  refine ⟨h1, h2, ?_⟩
  rw [h1, h2]
  norm_num

/-- C16, amended: for every 16-bit raw value `calculateVOCIndex(raw)` is the binary32
number nearest to `max(0, raw - 20000) / 100` and `calculateNOxIndex(raw)` the one nearest
to `max(0, raw - 10000) / 200` (each within 2^-16 of the exact quotient), the subtraction
being done without wrap-around, so that every raw value not above the offset gives exactly
0; the VOC index of 20000 is 0 and of 21000 is 10, the NOx index of 10000 is 0 and of 11000
is 5. -/
theorem index_calculation (raw : Nat) (h : raw < 65536) :
    SGP4x_7Semi.calculateVOCIndex raw = f32 (vocIndexExact raw) ∧
    |SGP4x_7Semi.calculateVOCIndex raw - vocIndexExact raw| ≤ 1 / 65536 ∧
    (raw ≤ 20000 → SGP4x_7Semi.calculateVOCIndex raw = 0) ∧
    SGP4x_7Semi.calculateNOxIndex raw = f32 (noxIndexExact raw) ∧
    |SGP4x_7Semi.calculateNOxIndex raw - noxIndexExact raw| ≤ 1 / 65536 ∧
    (raw ≤ 10000 → SGP4x_7Semi.calculateNOxIndex raw = 0) ∧
    SGP4x_7Semi.calculateVOCIndex 20000 = 0 ∧ SGP4x_7Semi.calculateVOCIndex 21000 = 10 ∧
    SGP4x_7Semi.calculateNOxIndex 10000 = 0 ∧ SGP4x_7Semi.calculateNOxIndex 11000 = 5 := by
  have hb := SGP4x_7Semi.indexExact_bounds raw h
  have e1 := f32_sub_le (vocIndexExact raw) 9 (by norm_num) hb.1
  have e2 := f32_sub_le (noxIndexExact raw) 9 (by norm_num) hb.2
  norm_num at e1 e2
  have f10 : f32 10 = 10 :=
    f32_exact 10 3 10485760 (by norm_num [abs_of_pos]) (by norm_num [abs_of_pos]) (by norm_num)
      (by norm_num)
  have f5 : f32 5 = 5 :=
    f32_exact 5 2 10485760 (by norm_num [abs_of_pos]) (by norm_num [abs_of_pos]) (by norm_num)
      (by norm_num)
  refine ⟨SGP4x_7Semi.calculateVOCIndex_eq raw, ?_, fun hle => ?_,
    SGP4x_7Semi.calculateNOxIndex_eq raw, ?_, fun hle => ?_, ?_, ?_, ?_, ?_⟩
  · rw [SGP4x_7Semi.calculateVOCIndex_eq]
    norm_num
    exact e1
  · unfold SGP4x_7Semi.calculateVOCIndex
    rw [if_neg (by omega)]
  · rw [SGP4x_7Semi.calculateNOxIndex_eq]
    norm_num
    exact e2
  · unfold SGP4x_7Semi.calculateNOxIndex
    rw [if_neg (by omega)]
  · unfold SGP4x_7Semi.calculateVOCIndex
    rw [if_neg (by norm_num)]
  · unfold SGP4x_7Semi.calculateVOCIndex
    rw [if_pos (by norm_num)]
    norm_num
    exact f10
  · unfold SGP4x_7Semi.calculateNOxIndex
    rw [if_neg (by norm_num)]
  · unfold SGP4x_7Semi.calculateNOxIndex
    rw [if_pos (by norm_num)]
    norm_num
    exact f5

theorem index_calculation_witness :
    (21000 : Nat) < 65536 ∧ SGP4x_7Semi.calculateVOCIndex 21000 = f32 (vocIndexExact 21000) ∧
    SGP4x_7Semi.calculateVOCIndex 21000 = 10 :=
  ⟨by decide, (index_calculation 21000 (by decide)).1,
    (index_calculation 21000 (by decide)).2.2.2.2.2.2.2.1⟩

/-! ## Dispatch on the configured variant -/

namespace SGP4x_7Semi

/-- The caller's `nox` variable only matters for the `nox` handed back. -/
theorem readRawSignalSGP41Comp_nox (self : SGP4x_7Semi) (b : Board) (rh t : Float32)
    (voc nox nox0 : Nat) :
    (self.readRawSignalSGP41Comp b rh t voc nox).ok =
      (self.readRawSignalSGP41Comp b rh t voc nox0).ok ∧
    (self.readRawSignalSGP41Comp b rh t voc nox).voc =
      (self.readRawSignalSGP41Comp b rh t voc nox0).voc ∧
    (self.readRawSignalSGP41Comp b rh t voc nox).self =
      (self.readRawSignalSGP41Comp b rh t voc nox0).self ∧
    (self.readRawSignalSGP41Comp b rh t voc nox).board =
      (self.readRawSignalSGP41Comp b rh t voc nox0).board := by
  unfold readRawSignalSGP41Comp
  dsimp only
  split_ifs <;> exact ⟨rfl, rfl, rfl, rfl⟩

theorem readRawSignalSGP40_calls (self : SGP4x_7Semi) (b : Board) (voc : Nat)
    (hinit : self._initialized = true) (htype : self.sensor_type = SGP4x.SGP40_SENSOR) :
    ∃ rest, (self.readRawSignalSGP40 b voc).board.calls =
      b.calls ++ frameCalls self.address 0x260F [0x8000, 0x6666] ++ rest := by
  rw [readRawSignalSGP40_eq self b voc hinit htype]
  split_ifs
  · exact ⟨[], by simp [Board.afterFrame]⟩
  · exact ⟨[Call.delay 30, Call.requestFrom self.address 3],
      by simp [Board.afterFrame, Board.afterRequest]⟩
  · exact ⟨[Call.delay 30, Call.requestFrom self.address 3] ++ List.replicate 3 Call.read,
      by simp [Board.afterFrame, Board.afterRequest, Board.afterReads]⟩
  · exact ⟨[Call.delay 30, Call.requestFrom self.address 3] ++ List.replicate 3 Call.read,
      by simp [Board.afterFrame, Board.afterRequest, Board.afterReads]⟩

end SGP4x_7Semi

/-- C17: the auto-dispatch reads take the raw-read path of the configured variant.  On an
SGP40 object `readVOCComp(h, t, voc)`, `readVOC(voc)` and `readRawSignalSGP40(voc)` are the
same call for every `h` and `t` (same result, output, object and board), and once
initialized the bytes written are 0x26 0x0F 0x80 0x00 0xA2 0x66 0x66 0x93, the default
ticks.  On an SGP41 object `readVOC(voc)` is `readRawSignalSGP41(voc, nox)` and
`readVOCComp(h, t, voc)` is `readRawSignalSGP41Comp(h, t, voc, nox)`, the NOx output
dropped. -/
theorem auto_dispatch (self : SGP4x_7Semi) (b : Board) (rh t : Float32) (voc nox : Nat) :
    (self.sensor_type = SGP4x_7Semi.SGP4x.SGP40_SENSOR →
      self.readVOCComp b rh t voc = self.readVOC b voc ∧
      self.readVOC b voc = self.readRawSignalSGP40 b voc ∧
      (self._initialized = true →
        ∃ rest, (self.readVOCComp b rh t voc).board.calls =
          b.calls ++ [Call.beginTransmission self.address, Call.write 0x26, Call.write 0x0F,
            Call.write 0x80, Call.write 0x00, Call.write 0xA2, Call.write 0x66, Call.write 0x66,
            Call.write 0x93, Call.endTransmission] ++ rest)) ∧
    (self.sensor_type = SGP4x_7Semi.SGP4x.SGP41_SENSOR →
      self.readVOC b voc =
        ⟨(self.readRawSignalSGP41 b voc nox).ok, (self.readRawSignalSGP41 b voc nox).voc,
          (self.readRawSignalSGP41 b voc nox).self, (self.readRawSignalSGP41 b voc nox).board⟩ ∧
      self.readVOCComp b rh t voc =
        ⟨(self.readRawSignalSGP41Comp b rh t voc nox).ok,
          (self.readRawSignalSGP41Comp b rh t voc nox).voc,
          (self.readRawSignalSGP41Comp b rh t voc nox).self,
          (self.readRawSignalSGP41Comp b rh t voc nox).board⟩) := by
  constructor
  · intro hs
    have e1 : self.readVOCComp b rh t voc = self.readRawSignalSGP40 b voc := by
      simp only [SGP4x_7Semi.readVOCComp, hs]
    have e2 : self.readVOC b voc = self.readRawSignalSGP40 b voc := by
      simp only [SGP4x_7Semi.readVOC, hs]
    refine ⟨e1.trans e2.symm, e2, fun hinit => ?_⟩
    have hf : frameCalls self.address 0x260F [0x8000, 0x6666] =
        [Call.beginTransmission self.address, Call.write 0x26, Call.write 0x0F,
          Call.write 0x80, Call.write 0x00, Call.write 0xA2, Call.write 0x66, Call.write 0x66,
          Call.write 0x93, Call.endTransmission] :=
      SGP4x_7Semi.default_frame self.address 0x260F (Or.inl rfl)
    rw [e1, ← hf]
    exact SGP4x_7Semi.readRawSignalSGP40_calls self b voc hinit hs
  · intro hs
    have h1 := SGP4x_7Semi.readRawSignalSGP41Comp_nox self b 50 25 voc nox 0
    have h2 := SGP4x_7Semi.readRawSignalSGP41Comp_nox self b rh t voc nox 0
    constructor
    · simp only [SGP4x_7Semi.readVOC, hs, SGP4x_7Semi.readRawSignalSGP41, h1.1, h1.2.1,
        h1.2.2.1, h1.2.2.2]
    · simp only [SGP4x_7Semi.readVOCComp, hs, h2.1, h2.2.1, h2.2.2.1, h2.2.2.2]

theorem auto_dispatch_witness :
    SGP4x_7Semi.readVOCComp ⟨some 0, 0x59, true, SGP4x_7Semi.SGP4x.SGP40_SENSOR, 0, 0, 0⟩
        ⟨[], [0], [3], [0xBE, 0xEF, 0x92]⟩ 80 30 0 =
      SGP4x_7Semi.readVOC ⟨some 0, 0x59, true, SGP4x_7Semi.SGP4x.SGP40_SENSOR, 0, 0, 0⟩
        ⟨[], [0], [3], [0xBE, 0xEF, 0x92]⟩ 0 :=
  ((auto_dispatch ⟨some 0, 0x59, true, SGP4x_7Semi.SGP4x.SGP40_SENSOR, 0, 0, 0⟩
    ⟨[], [0], [3], [0xBE, 0xEF, 0x92]⟩ 80 30 0 0).1 rfl).1

/-! ## Lifetime of the configuration -/

namespace SGP4x_7Semi

theorem readRawSignalSGP40_fields (self : SGP4x_7Semi) (b : Board) (voc : Nat) :
    (self.readRawSignalSGP40 b voc).self.sensor_type = self.sensor_type ∧
    (self.readRawSignalSGP40 b voc).self._initialized = self._initialized := by
  unfold readRawSignalSGP40
  dsimp only
  split_ifs <;> exact ⟨rfl, rfl⟩

theorem readRawSignalSGP41Comp_fields (self : SGP4x_7Semi) (b : Board) (rh t : Float32)
    (voc nox : Nat) :
    (self.readRawSignalSGP41Comp b rh t voc nox).self.sensor_type = self.sensor_type ∧
    (self.readRawSignalSGP41Comp b rh t voc nox).self._initialized = self._initialized := by
  unfold readRawSignalSGP41Comp
  dsimp only
  split_ifs <;> exact ⟨rfl, rfl⟩

theorem run_fields (o : Op) (self : SGP4x_7Semi) (b : Board) :
    (o.run self b).self.sensor_type = self.sensor_type ∧
    (o.run self b).self._initialized = self._initialized := by
  cases o with
  | executeConditioning rh t v =>
    have h := executeConditioning_self self b rh t v
    exact ⟨congrArg SGP4x_7Semi.sensor_type h, congrArg SGP4x_7Semi._initialized h⟩
  | readVOC voc =>
    simp only [Op.run, Outcome.of1, readVOC]
    split
    · exact readRawSignalSGP40_fields self b voc
    · exact readRawSignalSGP41Comp_fields self b 50 25 voc 0
  | readVOCComp rh t voc =>
    simp only [Op.run, Outcome.of1, readVOCComp]
    split
    · exact readRawSignalSGP40_fields self b voc
    · exact readRawSignalSGP41Comp_fields self b rh t voc 0
  | readRawSignalSGP41 voc nox => exact readRawSignalSGP41Comp_fields self b 50 25 voc nox
  | readRawSignalSGP41Comp rh t voc nox => exact readRawSignalSGP41Comp_fields self b rh t voc nox
  | readRawSignalSGP40 voc => exact readRawSignalSGP40_fields self b voc

theorem step_fields (s : Step) (self : SGP4x_7Semi) (b : Board) :
    (s.run self b).1.sensor_type = self.sensor_type ∧
    (self._initialized = true → (s.run self b).1._initialized = true) := by
  cases s with
  | begin esp32 a w c sda scl => exact ⟨rfl, fun _ => rfl⟩
  | op o =>
    have h := run_fields o self b
    exact ⟨h.1, fun hi => by rw [Step.run, h.2, hi]⟩

theorem runAll_fields (ss : List Step) (self : SGP4x_7Semi) (b : Board) :
    (Step.runAll ss self b).1.sensor_type = self.sensor_type ∧
    (self._initialized = true → (Step.runAll ss self b).1._initialized = true) := by
  induction ss generalizing self b with
  | nil => exact ⟨rfl, fun h => h⟩
  | cons s ss ih =>
    have hs := step_fields s self b
    have hr := ih (s.run self b).1 (s.run self b).2
    exact ⟨hr.1.trans hs.1, fun hi => hr.2 (hs.2 hi)⟩

end SGP4x_7Semi

/-- C18: the sensor configuration tag is fixed for the object's lifetime.  After any finite
sequence of calls of `begin`, `executeConditioning`, `readVOC`, `readVOCComp`,
`readRawSignalSGP41`, `readRawSignalSGP41Comp` and `readRawSignalSGP40`, with any arguments
and any behaviour of the bus, `readSensorType()` returns the variant given to the
constructor; and after a call of `begin` (on any object) the object is initialized and
stays so through any further sequence of calls. -/
theorem sensor_type_fixed (model : SGP4x_7Semi.SGP4x) (steps : List Step) (b : Board)
    (self : SGP4x_7Semi) (esp32 : Bool) (i2cAddress wirePort clockSpeed : Nat) (sda scl : Int)
    (later : List Step) :
    (Step.runAll steps (SGP4x_7Semi.create model) b).1.readSensorType = model ∧
    (SGP4x_7Semi.create model).readSensorType = model ∧
    (self.begin b esp32 i2cAddress wirePort clockSpeed sda scl).2.1._initialized = true ∧
    (Step.runAll later (self.begin b esp32 i2cAddress wirePort clockSpeed sda scl).2.1
      (self.begin b esp32 i2cAddress wirePort clockSpeed sda scl).2.2).1._initialized = true ∧
    (Step.runAll later (self.begin b esp32 i2cAddress wirePort clockSpeed sda scl).2.1
      (self.begin b esp32 i2cAddress wirePort clockSpeed sda scl).2.2).1.readSensorType =
        self.readSensorType :=
  ⟨(SGP4x_7Semi.runAll_fields steps _ b).1, rfl, rfl,
    (SGP4x_7Semi.runAll_fields later _ _).2 rfl, (SGP4x_7Semi.runAll_fields later _ _).1⟩

/-! ## Byte count of a read -/

namespace SGP4x_7Semi

theorem readWords_loop_calls (n i : Nat) (data : List Nat) (b : Board) :
    ∃ k, (readWords_loop n i data b).2.2.calls = b.calls ++ List.replicate k Call.read := by
  induction n generalizing i data b with
  | zero => exact ⟨0, by simp [readWords_loop]⟩
  | succ n ih =>
    have h3 : b.read.2.read.2.read.2.calls = b.calls ++ List.replicate 3 Call.read := by
      simp [Board.read, Board.log, List.replicate]
    unfold readWords_loop
    dsimp only
    split_ifs
    · exact ⟨3, h3⟩
    · obtain ⟨k, hk⟩ := ih (i + 1)
        (data.set i (((u8 b.read.1 <<< 8) ||| u8 b.read.2.read.1) % 65536)) b.read.2.read.2.read.2
      refine ⟨3 + k, ?_⟩
      rw [hk, h3, List.append_assoc, List.replicate_add]

theorem readWords_calls (self : SGP4x_7Semi) (b : Board) (data : List Nat) (N : Nat) :
    ∃ k, (self.readWords b data N).2.2.calls =
      b.calls ++ [Call.requestFrom self.address ((N * 3) % 256)] ++
        List.replicate k Call.read := by
  unfold readWords
  dsimp only
  split_ifs
  · exact ⟨0, by simp [Board.requestFrom, Board.log]⟩
  · obtain ⟨k, hk⟩ := readWords_loop_calls N 0 data (b.requestFrom self.address ((N * 3) % 256)).2
    exact ⟨k, by rw [hk]; simp [Board.requestFrom, Board.log]⟩

end SGP4x_7Semi

/-- C19 fails as stated: for N = 86 the byte count 258 does not fit the 8-bit variable
`expected`; the code requests 2 bytes and accepts a reported count of 2, and it rejects a
reported count of 258. -/
theorem readWords_request_wraps :
    SGP4x_7Semi.readWords ⟨some 0, 0x59, true, SGP4x_7Semi.SGP4x.SGP41_SENSOR, 0, 0, 0⟩
        ⟨[], [], [2], [0xBE, 0xEF]⟩ (List.replicate 86 0) 86 =
      (false, List.replicate 86 0,
        ⟨[Call.requestFrom 0x59 2, Call.read, Call.read, Call.read], [], [], []⟩) ∧
    SGP4x_7Semi.readWords ⟨some 0, 0x59, true, SGP4x_7Semi.SGP4x.SGP41_SENSOR, 0, 0, 0⟩
        ⟨[], [], [258], []⟩ (List.replicate 86 0) 86 =
      (false, List.replicate 86 0, ⟨[Call.requestFrom 0x59 2], [], [], []⟩) := by
  decide

/-- C19, amended: for every word count N up to 85 (so that 3 * N fits in 8 bits)
`readWords` makes exactly one request, for exactly 3 * N bytes, followed only by `read`
calls, and compares the reported count against 3 * N: any other count makes it return
false at once, the count 3 * N lets it go on to read the words. -/
theorem readWords_request (self : SGP4x_7Semi) (b : Board) (data : List Nat) (N : Nat)
    (hN : N ≤ 85) :
    (∃ k, (self.readWords b data N).2.2.calls =
      b.calls ++ [Call.requestFrom self.address (3 * N)] ++ List.replicate k Call.read) ∧
    (b.granted.headD 0 ≠ 3 * N →
      self.readWords b data N =
        (false, data, { b with
          calls := b.calls ++ [Call.requestFrom self.address (3 * N)]
          granted := b.granted.tail })) ∧
    (b.granted.headD 0 = 3 * N →
      self.readWords b data N =
        SGP4x_7Semi.readWords_loop N 0 data (b.requestFrom self.address (3 * N)).2) := by
  have e : (N * 3) % 256 = 3 * N := by omega
  refine ⟨?_, fun h => ?_, fun h => ?_⟩
  · rw [← e]
    exact SGP4x_7Semi.readWords_calls self b data N
  · rw [← e] at h ⊢
    exact SGP4x_7Semi.readWords_count_mismatch self b data N h
  · rw [← e] at h ⊢
    exact SGP4x_7Semi.readWords_count_match self b data N h

theorem readWords_request_witness :
    SGP4x_7Semi.readWords ⟨some 0, 0x59, true, SGP4x_7Semi.SGP4x.SGP41_SENSOR, 0, 0, 0⟩
        ⟨[], [], [5], [1, 2, 3]⟩ [0, 0] 2 =
      (false, [0, 0], ⟨[Call.requestFrom 0x59 6], [], [], [1, 2, 3]⟩) :=
  (readWords_request ⟨some 0, 0x59, true, SGP4x_7Semi.SGP4x.SGP41_SENSOR, 0, 0, 0⟩
    ⟨[], [], [5], [1, 2, 3]⟩ [0, 0] 2 (by decide)).2.1 (by decide)

/-! ## Round trip -/

namespace SGP4x_7Semi

theorem wordTriplet_spec (w : Nat) (hw : w < 65536) :
    (wordTriplet w).isBytes ∧ (wordTriplet w).valid ∧ (wordTriplet w).word = w := by
  refine ⟨⟨shiftRight_8_lt hw, and_255_lt w, generateCRC_lt _ _⟩, rfl, ?_⟩
  have h := Nat.and_pow_two_sub_one_eq_mod w 8
  have h' : w &&& 0xFF = w % 256 := by simpa using h
  simp only [wordTriplet, Triplet.word, h', Nat.shiftRight_eq_div_pow]
  omega

theorem writtenBytes_frameCalls (address cmd : Nat) (ws : List Nat) :
    writtenBytes (frameCalls address cmd ws) = commandFrame cmd ws := by
  have hmap : ∀ l : List Nat, writtenBytes (l.map Call.write) = l := by
    intro l
    induction l with
    | nil => rfl
    | cons x l ih =>
      simp only [writtenBytes, List.map_cons, List.filterMap_cons] at ih ⊢
      rw [ih]
  unfold frameCalls
  simp only [writtenBytes, List.filterMap_append, List.filterMap_cons, List.filterMap_nil,
    List.nil_append, List.append_nil] at hmap ⊢
  exact hmap _

theorem commandFrame_payload (cmd : Nat) (ws : List Nat) :
    ((commandFrame cmd ws).drop 2).map (fun x : Nat => (x : Int)) =
      responseBytes (ws.map wordTriplet) := by
  simp only [commandFrame, List.cons_append, List.nil_append, List.drop_succ_cons, List.drop_zero,
    responseBytes]
  induction ws with
  | nil => rfl
  | cons w ws ih =>
    simp only [List.flatMap_cons, List.map_append, List.map_cons, List.map_nil, ih, wordTriplet,
      List.cons_append, List.nil_append]

end SGP4x_7Semi

/-- C20: encoding and decoding agree.  For every opcode and every list of at most 85
16-bit data words, when the bytes that `writeCommand` hands to `write` after the two
opcode bytes come back as the response to `readWords` with the same word count (the
transport reporting that many bytes), `readWords` returns true and its output is the list
of words. -/
theorem round_trip (self : SGP4x_7Semi) (b b2 : Board) (cmd : Nat) (ws data : List Nat)
    (rest : List Int) (hcmd : cmd < 65536) (hws : ∀ w ∈ ws, w < 65536)
    (hn : ws.length ≤ 85) (hlen : ws.length ≤ data.length)
    (hin : b2.incoming =
      (((writtenBytes (self.writeCommand b cmd ws ws.length).2.calls).drop
        ((writtenBytes b.calls).length + 2)).map (fun x : Nat => (x : Int))) ++ rest)
    (hcount : b2.granted.headD 0 = 3 * ws.length) :
    (self.readWords b2 data ws.length).1 = true ∧
    (self.readWords b2 data ws.length).2.1 = ws ++ data.drop ws.length ∧
    (self.readWords b2 data ws.length).2.1.take ws.length = ws := by
  have hw := SGP4x_7Semi.writeCommand_eq self b cmd ws hcmd hws
  have hbytes : (writtenBytes (self.writeCommand b cmd ws ws.length).2.calls).drop
      ((writtenBytes b.calls).length + 2) = (commandFrame cmd ws).drop 2 := by
    rw [hw]
    simp only [Board.afterFrame]
    have : writtenBytes (b.calls ++ frameCalls self.address cmd ws) =
        writtenBytes b.calls ++ commandFrame cmd ws := by
      rw [← SGP4x_7Semi.writtenBytes_frameCalls self.address cmd ws]
      simp [writtenBytes]
    rw [this, ← List.drop_drop, List.drop_left]
  rw [hbytes, SGP4x_7Semi.commandFrame_payload] at hin
  have hts : ∀ t ∈ ws.map wordTriplet, t.isBytes ∧ t.valid := by
    intro t ht
    obtain ⟨w, hwm, rfl⟩ := List.mem_map.1 ht
    exact ⟨(SGP4x_7Semi.wordTriplet_spec w (hws w hwm)).1,
      (SGP4x_7Semi.wordTriplet_spec w (hws w hwm)).2.1⟩
  have hwords : (ws.map wordTriplet).map Triplet.word = ws := by
    rw [List.map_map]
    calc ws.map (Triplet.word ∘ wordTriplet) = ws.map id :=
          List.map_congr_left (fun w hwm => (SGP4x_7Semi.wordTriplet_spec w (hws w hwm)).2.2)
      _ = ws := List.map_id ws
  have hr := SGP4x_7Semi.readWords_all_valid self b2 data (ws.map wordTriplet) rest
    (by simpa using hlen) hts hin (by rw [hcount, List.length_map]; omega)
  rw [List.length_map, hwords] at hr
  rw [hr]
  exact ⟨rfl, rfl, List.take_left _ _⟩

theorem round_trip_witness :
    (SGP4x_7Semi.readWords ⟨some 0, 0x59, true, SGP4x_7Semi.SGP4x.SGP41_SENSOR, 0, 0, 0⟩
        ⟨[], [], [6], [0x80, 0x00, 0xA2, 0x66, 0x66, 0x93]⟩ [0, 0] 2).2.1 = [0x8000, 0x6666] := by
  have h := round_trip ⟨some 0, 0x59, true, SGP4x_7Semi.SGP4x.SGP41_SENSOR, 0, 0, 0⟩
    ⟨[], [0], [], []⟩ ⟨[], [], [6], [0x80, 0x00, 0xA2, 0x66, 0x66, 0x93]⟩ 0x2619 [0x8000, 0x6666]
    [0, 0] [] (by decide) (by decide) (by decide) (by decide) (by decide) (by decide)
  exact h.2.1
